/-
  Verification of the ech-workers repository against its specification.

  The repository has two source files:
    * src/websocket/websocket.go — a Go client: DoH-based DNS HTTPS-record
      resolver extracting an ECH configuration (package ech), an ECH config
      store, and a WebSocket dialer with ECH-aware retry (package websocket);
    * src/_worker.js — a Cloudflare worker relay: per-session control-message
      handling, outbound TCP connect with fallback, pumping, and teardown.

  This file shallowly embeds the relevant functions and proves or refutes the
  specification's claims about them.  Byte buffers are `List Nat` (each entry a
  byte value; arithmetic is masked mod 256 where Go's byte type would mask).
  Reads that Go performs on a slice without a preceding source-level bounds
  check are modelled with `List.get?`, with `none`/`.oob` standing for the
  run-time panic an out-of-range access would raise; reads that Go guards in
  the source are modelled with the same guard.
-/
import Mathlib

namespace ECH

/-! ## DNS wire-format parser (websocket.go, package ech) -/

/-- Outcome of `parseDNSResponse` (websocket.go:279-331).
    Go returns a `(string, error)` pair; the constructors correspond to:
    `tooShort` = `("", errors.New("响应过短"))`,
    `noAnswers` = `("", errors.New("无应答记录"))`,
    `found s` = `(s, nil)` with `s ≠ ""`,
    `notFound` = `("", nil)`,
    `oob` = a bounds panic (never returned by a correct parser). -/
inductive DNSResult where
  | tooShort
  | noAnswers
  | found (ech : String)
  | notFound
  | oob
deriving DecidableEq, Repr

/-- `binary.BigEndian.Uint16(resp[off : off+2])`.  The Go slice expression
    panics when `off+2 > len(resp)`; `none` models that panic. -/
def readU16 (resp : List Nat) (off : Nat) : Option Nat :=
  match resp.get? off, resp.get? (off + 1) with
  | some a, some b => some (a * 256 + b)
  | _, _ => none

/-- The label-walking loop used to skip the echoed question
    (websocket.go:290-292) and an uncompressed answer name
    (websocket.go:302-304):
    `for offset < len(response) && response[offset] != 0 { offset += int(response[offset]) + 1 }`.
    Returns the offset at which the loop stops (a zero byte, or ≥ length). -/
def skipName (resp : List Nat) (off : Nat) : Nat :=
  if h : off < resp.length then
    if resp.get ⟨off, h⟩ = 0 then off
    else skipName resp (off + (resp.get ⟨off, h⟩ + 1))
  else off
termination_by resp.length - off
decreasing_by omega

/-- Standard base64 alphabet (RFC 4648), as used by Go's
    `encoding/base64.StdEncoding`. -/
def b64Alphabet : List Char :=
  "ABCDEFGHIJKLMNOPQRSTUVWXYZabcdefghijklmnopqrstuvwxyz0123456789+/".toList

/-- Character for a 6-bit group. -/
def b64Char (n : Nat) : Char := b64Alphabet.getD n 'A'

/-- Core of standard base64 encoding: 3 input bytes become 4 characters,
    with `=` padding for a 1- or 2-byte tail. -/
def b64encodeCore : List Nat → List Char
  | [] => []
  | [a] => [b64Char (a / 4), b64Char (a % 4 * 16), '=', '=']
  | [a, b] => [b64Char (a / 4), b64Char (a % 4 * 16 + b / 16), b64Char (b % 16 * 4), '=']
  | a :: b :: c :: rest =>
      b64Char (a / 4) :: b64Char (a % 4 * 16 + b / 16) ::
      b64Char (b % 16 * 4 + c / 64) :: b64Char (c % 64) :: b64encodeCore rest

/-- Go `base64.StdEncoding.EncodeToString` (websocket.go:373).  Inputs are
    bytes, so each entry is masked mod 256. -/
def b64encode (bs : List Nat) : String := ⟨b64encodeCore (bs.map (· % 256))⟩

/-- Value of a base64 character, `none` for a character outside the alphabet. -/
def b64Val (c : Char) : Option Nat := b64Alphabet.findIdx? (· = c)

/-- Core of standard base64 decoding with mandatory padding, processing
    4-character groups; `none` on any malformed input, matching Go's
    `base64.StdEncoding.DecodeString` returning an error. -/
def b64decodeCore : List Char → Option (List Nat)
  | [] => some []
  | a :: b :: c :: d :: rest =>
    match b64Val a, b64Val b with
    | some va, some vb =>
      if c = '=' then
        if d = '=' ∧ rest = [] then some [va * 4 + vb / 16] else none
      else
        match b64Val c with
        | some vc =>
          if d = '=' then
            if rest = [] then some [va * 4 + vb / 16, vb % 16 * 16 + vc / 4] else none
          else
            match b64Val d with
            | some vd =>
              (b64decodeCore rest).map
                (fun tl => (va * 4 + vb / 16) :: (vb % 16 * 16 + vc / 4) :: (vc % 4 * 64 + vd) :: tl)
            | none => none
        | none => none
    | _, _ => none
  | _ => none

/-- Go `base64.StdEncoding.DecodeString` (websocket.go:171). -/
def b64decode (s : String) : Option (List Nat) := b64decodeCore s.toList

/-- The TargetName-skipping loop of `parseHTTPSRecord` (websocket.go:346-352):
    `for offset < len(data) && data[offset] != 0 { step := int(data[offset]) + 1;
     if step <= 0 || offset+step > len(data) { return "" }; offset += step }`.
    `none` models the early `return ""` on an overlong label.  (`step <= 0`
    is never true since `step` is a byte value plus one.) -/
def httpsSkipTarget (data : List Nat) (off : Nat) : Option Nat :=
  if h : off < data.length then
    if data.get ⟨off, h⟩ = 0 then some off
    else if off + (data.get ⟨off, h⟩ + 1) > data.length then none
    else httpsSkipTarget data (off + (data.get ⟨off, h⟩ + 1))
  else some off
termination_by data.length - off
decreasing_by omega

/-- The SvcParam loop of `parseHTTPSRecord` (websocket.go:356-375).
    Result `some ""` = no ECH parameter found (the Go `return ""` paths),
    `some s` with `s ≠ ""` = the base64-encoded key-5 value,
    `none` = a bounds panic (never actually reachable).
    Note: the Go loop `break`s on a zero-length parameter
    (`if length == 0 || offset+int(length) > len(data) { break }`), so
    parameters after a zero-length one are never examined. -/
def svcLoop (data : List Nat) (off : Nat) : Option String :=
  if h4 : off + 4 ≤ data.length then
    -- dead re-check in the source: `if offset+4 > len(data) { return "" }`
    if off + 4 > data.length then some ""
    else
      match readU16 data off, readU16 data (off + 2) with
      | some key, some len =>
        if hb : len = 0 ∨ off + 4 + len > data.length then some ""
        else
          let value := (data.drop (off + 4)).take len
          if key = 5 then some (b64encode value)
          else svcLoop data (off + 4 + len)
      | _, _ => none
  else some ""
termination_by data.length - off
decreasing_by omega

/-- Go `parseHTTPSRecord` (websocket.go:333-377): skip 2 bytes of priority,
    skip the TargetName, then scan SvcParams for key 5. -/
def parseHTTPSRecord (data : List Nat) : Option String :=
  if data.length < 2 then some ""
  else
    if h : 2 < data.length then
      if data.get ⟨2, h⟩ = 0 then svcLoop data 3
      else
        match httpsSkipTarget data 2 with
        | none => some ""
        | some o => svcLoop data (o + 1)
    else some ""   -- offset 2 >= len(data): `return ""`

/-- The answer-record loop of `parseDNSResponse` (websocket.go:295-329),
    iterating `count` times starting at byte offset `off`. -/
def ansLoop (resp : List Nat) (count : Nat) (off : Nat) : DNSResult :=
  match count with
  | 0 => .notFound
  | n + 1 =>
    if h : off < resp.length then
      -- NAME: a compression pointer is skipped as 2 bytes, otherwise walk labels
      let off1 :=
        if resp.get ⟨off, h⟩ &&& 192 = 192 then off + 2
        else skipName resp off + 1
      if off1 + 10 > resp.length then .notFound   -- break
      else
        match readU16 resp off1, readU16 resp (off1 + 8) with
        | some rrType, some dataLen =>
          if off1 + 10 + dataLen > resp.length then .notFound   -- break
          else
            let data := (resp.drop (off1 + 10)).take dataLen
            if rrType = 65 then
              match parseHTTPSRecord data with
              | none => .oob
              | some s => if s = "" then ansLoop resp n (off1 + 10 + dataLen) else .found s
            else ansLoop resp n (off1 + 10 + dataLen)
        | _, _ => .oob
    else .notFound   -- break

/-- Go `parseDNSResponse` (websocket.go:279-331). -/
def parseDNSResponse (resp : List Nat) : DNSResult :=
  if resp.length < 12 then .tooShort
  else
    match readU16 resp 6 with
    | none => .oob
    | some ancount =>
      if ancount = 0 then .noAnswers
      else ansLoop resp ancount (skipName resp 12 + 5)

/-! ## Wire-format encoders for well-formed DNS responses

These encoders describe the shape of a well-formed DNS response; the claims
about the parser are stated as round-trip properties against them. -/

/-- Big-endian 16-bit encoding of `n` (masked to 16 bits, as writing a Go
    `uint16` would). -/
def encU16 (n : Nat) : List Nat := [n / 256 % 256, n % 256]

/-- Length-prefixed encoding of a DNS label sequence (without terminator). -/
def labelsBytes (ls : List (List Nat)) : List Nat :=
  (ls.map (fun l => l.length :: l)).flatten

/-- Labels are well-formed when each is 1–63 bytes long (so its length byte
    is nonzero and has the top two bits clear). -/
def WFlabels (ls : List (List Nat)) : Prop := ∀ l ∈ ls, 1 ≤ l.length ∧ l.length ≤ 63

/-- An answer-record NAME: either a 2-byte compression pointer or an
    uncompressed label sequence. -/
inductive DName where
  | ptr (t : Nat)
  | plain (labels : List (List Nat))

/-- Wire encoding of a NAME.  A pointer to target `t < 0x4000` is the two
    bytes `0xC0 ∣ (t >> 8), t & 0xFF`. -/
def encName : DName → List Nat
  | .ptr t => [192 + t / 256, t % 256]
  | .plain ls => labelsBytes ls ++ [0]

def WFname : DName → Prop
  | .ptr t => t < 16384
  | .plain ls => WFlabels ls

/-- A resource record as laid out in the answer section.  `meta` holds the
    CLASS and TTL bytes, which the parser skips without reading. -/
structure RR where
  name : DName
  rtype : Nat
  meta : List Nat
  rdata : List Nat

/-- Wire encoding of a resource record:
    NAME ++ TYPE(2) ++ CLASS+TTL(6) ++ RDLENGTH(2) ++ RDATA. -/
def encRR (r : RR) : List Nat :=
  encName r.name ++ encU16 r.rtype ++ r.meta ++ encU16 r.rdata.length ++ r.rdata

def WFrr (r : RR) : Prop :=
  WFname r.name ∧ r.rtype < 65536 ∧ r.meta.length = 6 ∧ r.rdata.length < 65536

/-- A well-formed DNS response: 12-byte header whose ANCOUNT is at bytes 6–7,
    one echoed question, then the answer records. -/
structure DNSResp where
  header6 : List Nat      -- ID + flags + QDCOUNT (6 bytes)
  ancount : Nat
  tail4 : List Nat        -- NSCOUNT + ARCOUNT (4 bytes)
  qlabels : List (List Nat)
  qtail : List Nat        -- QTYPE + QCLASS (4 bytes)
  answers : List RR

def encResp (m : DNSResp) : List Nat :=
  m.header6 ++ encU16 m.ancount ++ m.tail4 ++
  labelsBytes m.qlabels ++ [0] ++ m.qtail ++ (m.answers.map encRR).flatten

def WFresp (m : DNSResp) : Prop :=
  m.header6.length = 6 ∧ m.tail4.length = 4 ∧ m.qtail.length = 4 ∧
  m.ancount = m.answers.length ∧ m.ancount < 65536 ∧ WFlabels m.qlabels

/-- A SvcParam of an HTTPS record: 2-byte key, 2-byte length, value. -/
structure SvcParam where
  key : Nat
  value : List Nat

def encParam (p : SvcParam) : List Nat := encU16 p.key ++ encU16 p.value.length ++ p.value

/-- Wire encoding of HTTPS-record RDATA: 2 bytes of SvcPriority, a TargetName
    (label sequence, root = single zero byte), then the SvcParams. -/
def encHTTPS (prio : List Nat) (target : List (List Nat)) (ps : List SvcParam) : List Nat :=
  prio ++ labelsBytes target ++ [0] ++ (ps.map encParam).flatten

/-! ## ECH config store (websocket.go:148-195) -/

/-- The mutable state of `ECHManager`: the cached ECH config blob.
    (`echDomain`/`dnsServer` only feed the external DoH query, which is
    modelled as an oracle argument to `Prepare`.) -/
structure ECHManager where
  echList : List Nat
deriving DecidableEq, Repr

/-- Errors of `Prepare` (websocket.go:162-181): `dnsFail` = "DNS查询失败",
    `echNotFound` = "未找到ECH参数", `decodeFail` = "ECH解码失败". -/
inductive PrepErr where
  | dnsFail
  | echNotFound
  | decodeFail
deriving DecidableEq, Repr

/-- Go `(*ECHManager).Prepare`.  `queryRes` is the outcome of the external
    `queryHTTPSRecord` DoH call (network I/O): an error, or the base64
    string extracted from the DNS response. -/
def Prepare (queryRes : Except Unit String) (m : ECHManager) :
    Except PrepErr Unit × ECHManager :=
  match queryRes with
  | .error _ => (.error .dnsFail, m)
  | .ok echBase64 =>
    if echBase64 = "" then (.error .echNotFound, m)
    else
      match b64decode echBase64 with
      | none => (.error .decodeFail, m)
      | some raw => (.ok (), { m with echList := raw })

/-- Go `(*ECHManager).GetECHList` (websocket.go:183-191): the error carries
    the message "ECH配置未加载". -/
def GetECHList (m : ECHManager) : Except String (List Nat) :=
  if m.echList.length = 0 then .error "ECH配置未加载" else .ok m.echList

/-- Go `(*ECHManager).Refresh` (websocket.go:193-195) simply re-runs
    `Prepare`. -/
def Refresh (queryRes : Except Unit String) (m : ECHManager) :
    Except PrepErr Unit × ECHManager :=
  Prepare queryRes m

/-- State after a sequence of `Prepare` calls with the given DoH outcomes. -/
def runPrepares (qs : List (Except Unit String)) (m : ECHManager) : ECHManager :=
  match qs with
  | [] => m
  | q :: rest => runPrepares rest (Prepare q m).2

/-- The blob a single `Prepare` call would store, `none` if it fails. -/
def prepValue (q : Except Unit String) : Option (List Nat) :=
  match q with
  | .error _ => none
  | .ok s => if s = "" then none else b64decode s

/-- The blob stored by the last successful `Prepare` of a sequence. -/
def lastSuccess : List (Except Unit String) → Option (List Nat)
  | [] => none
  | q :: rest =>
    match lastSuccess rest with
    | some v => some v
    | none => prepValue q

/-! ## Dialer retry loop (websocket.go:59-128, `DialWithECH`) -/

/-- `strings.Contains hay sub`, as a Bool. -/
def containsB (hay sub : List Char) : Bool := decide (sub <:+: hay)

/-- The build-failure classifier of websocket.go:73-74:
    `strings.Contains(err, "ECH配置") || strings.Contains(err, "未找到ECH")`. -/
def echBuildRetryable (msg : List Char) : Bool :=
  containsB msg "ECH配置".toList || containsB msg "未找到ECH".toList

/-- The dial-failure classifier of websocket.go:113-114:
    `strings.Contains(err, "ECH") || strings.Contains(err, "encrypted")`. -/
def echDialRetryable (msg : List Char) : Bool :=
  containsB msg "ECH".toList || containsB msg "encrypted".toList

/-- Outcome of one dial attempt, supplied by the environment:
    `BuildTLSConfig` fails with a message, or it succeeds and the WebSocket
    dial either fails with a message or yields a connection. -/
inductive AttemptRes where
  | buildErr (msg : List Char)
  | buildOk (dial : Except (List Char) Nat)

/-- Result of `DialWithECH`: `conn` = success;
    `buildFatal m` = `fmt.Errorf("构建TLS配置失败: %w", m)`;
    `dialFatal m` = `fmt.Errorf("WebSocket连接失败: %w", m)`;
    `exhausted e` = `fmt.Errorf("连接失败，已达最大重试次数(%d): %v", ..., e)`. -/
inductive DialOutcome where
  | conn (c : Nat)
  | buildFatal (msg : List Char)
  | dialFatal (msg : List Char)
  | exhausted (lastErr : Option (List Char))
deriving DecidableEq, Repr

/-- Observable side effects of the dial loop. -/
inductive DialAct where
  | refresh
  | sleepMs (ms : Nat)
deriving DecidableEq, Repr

/-- The retry loop of `DialWithECH`:
    `for attempt := 1; attempt <= maxRetries; attempt++ { ... }`, with the
    after-loop `return`.  A retryable build failure refreshes and sleeps
    500ms, a retryable dial failure refreshes and sleeps 1s; both require
    `attempt < maxRetries`, otherwise the failure is returned wrapped. -/
def dialLoop (env : Nat → AttemptRes) (maxRetries attempt : Nat)
    (lastErr : Option (List Char)) : DialOutcome × List DialAct :=
  if h : attempt ≤ maxRetries then
    match env attempt with
    | .buildErr m =>
      if attempt < maxRetries ∧ echBuildRetryable m = true then
        let r := dialLoop env maxRetries (attempt + 1) (some m)
        (r.1, .refresh :: .sleepMs 500 :: r.2)
      else (.buildFatal m, [])
    | .buildOk (.error m) =>
      if attempt < maxRetries ∧ echDialRetryable m = true then
        let r := dialLoop env maxRetries (attempt + 1) (some m)
        (r.1, .refresh :: .sleepMs 1000 :: r.2)
      else (.dialFatal m, [])
    | .buildOk (.ok c) => (.conn c, [])
  else (.exhausted lastErr, [])
termination_by maxRetries + 1 - attempt
decreasing_by all_goals omega

/-- Go `DialWithECH` after a successful address parse.  Go's `maxRetries`
    is an `int`; a non-positive value skips the loop, which the `Nat`
    argument `0` models. -/
def DialWithECH (env : Nat → AttemptRes) (maxRetries : Nat) :
    DialOutcome × List DialAct :=
  dialLoop env maxRetries 1 none

/-- Whether an attempt outcome is a failure the loop classifies as
    ECH-related (and therefore retryable). -/
def attemptRetryable : AttemptRes → Bool
  | .buildErr m => echBuildRetryable m
  | .buildOk (.error m) => echDialRetryable m
  | .buildOk (.ok _) => false

/-! ## Worker session model (src/_worker.js) -/

/-- `String.prototype.split` with a single-character class, e.g.
    `addr.split(/[:,;]/)` or `data.split('|')`: JS yields `[""]` on the
    empty string and keeps empty segments. -/
def splitBy (p : Char → Bool) : List Char → List (List Char)
  | [] => [[]]
  | c :: cs =>
    if p c then [] :: splitBy p cs
    else
      match splitBy p cs with
      | [] => [[c]]
      | h :: t => (c :: h) :: t

/-- The separators accepted by `parseAddress` for non-bracketed forms. -/
def isSepChar (c : Char) : Bool := c = ':' || c = ',' || c = ';'

/-- Leading decimal-digit run value; `none` when there is no digit, which is
    JS `parseInt` returning `NaN`. -/
def digitsVal (s : List Char) : Option Nat :=
  let ds := s.takeWhile Char.isDigit
  if ds.isEmpty then none
  else some (ds.foldl (fun a c => a * 10 + (c.toNat - 48)) 0)

/-- JS `parseInt(s, 10)`: skip leading whitespace, optional sign, then the
    leading digit run; `NaN` (here `none`) if no digit follows. -/
def jsParseInt (s : List Char) : Option Int :=
  match s.dropWhile Char.isWhitespace with
  | '-' :: r => (digitsVal r).map (fun n => -(n : Int))
  | '+' :: r => (digitsVal r).map (fun n => (n : Int))
  | r => (digitsVal r).map (fun n => (n : Int))

/-- Result of `parseAddress` (_worker.js:80-104). -/
structure Parsed where
  host : List Char
  port : Int
deriving DecidableEq, Repr

/-- `parseAddress` (_worker.js:80-104).  Bracketed `[ipv6]` keeps the
    brackets in `host`; an absent or unparsable port becomes 443
    (`isNaN(parsedPort) ? 443 : parsedPort`).  In the bracketed branch
    without a `:` the code sets `port = 443` (a number), and
    `parseInt(443, 10) = 443`. -/
def parseAddress (addr : List Char) : Parsed :=
  if addr.headD ' ' = '[' ∧ ']' ∈ addr then
    let ci := addr.findIdx (· = ']')
    let after := addr.drop (ci + 1)
    let portNum : Option Int :=
      match after with
      | ':' :: r => jsParseInt r
      | _ => some 443
    ⟨addr.take (ci + 1), portNum.getD 443⟩
  else
    let parts := splitBy isSepChar addr
    let portNum : Option Int :=
      match parts with
      | _ :: p :: _ => jsParseInt p
      | _ => some 443
    ⟨parts.headD [], portNum.getD 443⟩

/-- `isCFError` (_worker.js:106-111). -/
def isCFError (msg : List Char) : Bool :=
  let m := msg.map Char.toLower
  containsB m "proxy request".toList || containsB m "cannot connect".toList ||
    containsB m "cloudflare".toList

/-- Per-session state of `handleSession` (_worker.js:34-49): the closure
    variables plus the WebSocket's readyState (1 = OPEN, 2 = CLOSING,
    3 = CLOSED).  Socket/writer/reader handles are abstract ids. -/
structure Sess where
  isClosed : Bool
  isConnecting : Bool
  remote : Option Nat
  writer : Option Nat
  reader : Option Nat
  attempts : Nat
  wsReadyState : Nat
deriving DecidableEq, Repr

/-- Observable side effects of the session. -/
inductive Act where
  | releaseWriter
  | releaseReader
  | closeSocket
  | closeWS
  | sendConnected
  | sendError (msg : List Char)
  | sendCloseMsg
  | writeOut (bytes : List Char)
  | writeBin (bytes : List Nat)
  | startPump
deriving DecidableEq, Repr

/-- `safeCloseWebSocket` (_worker.js:226-232): close only while OPEN or
    CLOSING. -/
def safeCloseWebSocket (st : Sess) : Sess × List Act :=
  if st.wsReadyState = 1 ∨ st.wsReadyState = 2 then
    ({ st with wsReadyState := 3 }, [.closeWS])
  else (st, [])

/-- `cleanup` (_worker.js:40-49): idempotent teardown.  The optional-chained
    `releaseLock`/`close` calls are no-ops on absent handles, so an act is
    recorded only when the corresponding handle exists. -/
def cleanup (st : Sess) : Sess × List Act :=
  if st.isClosed then (st, [])
  else
    let acts :=
      (if st.writer.isSome then [Act.releaseWriter] else []) ++
      (if st.reader.isSome then [Act.releaseReader] else []) ++
      (if st.remote.isSome then [Act.closeSocket] else [])
    let st1 : Sess :=
      { st with isClosed := true, isConnecting := false,
                writer := none, reader := none, remote := none }
    let ws := safeCloseWebSocket st1
    (ws.1, acts ++ ws.2)

/-- The message thrown on a second Connect (_worker.js:115). -/
def alreadyMsg : List Char := "已有连接或正在连接中".toList

/-- The message thrown on an empty target (_worker.js:199). -/
def invalidTargetMsg : List Char := "无效的目标地址".toList

/-- The attempt list of `connectToRemote` (_worker.js:123-127):
    the original target, then the proxy fallback when one was supplied. -/
def connectAttempts (proxyIP : List Char) : List (Option (List Char)) :=
  if proxyIP.isEmpty then [none] else [none, some proxyIP]

/-- Host/port for one attempt (_worker.js:130-148).  For a fallback the code
    checks `isNaN(parsed.port)`, but `parseAddress` never yields `NaN` (an
    unparsable port already became 443) and never throws, so the other
    branches are dead and the parsed fallback is always used. -/
def attemptHostPort (orig : Parsed) (a : Option (List Char)) : Parsed :=
  match a with
  | none => orig
  | some fb => parseAddress fb

/-- The attempt loop of `connectToRemote` (_worker.js:129-179).  `env i` is
    the outcome of the `connect()` + `opened` wait of the i-th attempt.  On
    success the writer/reader are acquired, the optional first frame is
    written, `CONNECTED` is sent and the pump is started.  On failure the
    partial handles are nulled and the next attempt runs only for a
    recognized edge-platform error that is not the last attempt. -/
def connLoop (env : Nat → Except (List Char) Nat) (orig : Parsed)
    (atts : List (Option (List Char))) (i : Nat) (st : Sess)
    (firstFrame : List Char) : Except (List Char) Unit × Sess × List Act :=
  match atts with
  | [] => (.ok (), st, [])   -- unreachable: the attempt list is nonempty
  | a :: rest =>
    let _hp := attemptHostPort orig a
    match env i with
    | .ok sock =>
      let st2 : Sess :=
        { st with remote := some sock, writer := some sock, reader := some sock,
                  isConnecting := false }
      (.ok (), st2,
        (if firstFrame.isEmpty then [] else [Act.writeOut firstFrame]) ++
          [Act.sendConnected, Act.startPump])
    | .error m =>
      if isCFError m = true ∧ rest ≠ [] then
        connLoop env orig rest (i + 1) st firstFrame
      else (.error m, st, [])

/-- `connectToRemote` (_worker.js:113-184).  The guard throws
    `已有连接或正在连接中` before touching any state; otherwise the state is
    marked connecting, the attempts run, and the outer catch clears
    `isConnecting` before rethrowing. -/
def connectToRemote (env : Nat → Except (List Char) Nat) (st : Sess)
    (targetAddr firstFrame proxyIP : List Char) :
    Except (List Char) Unit × Sess × List Act :=
  if st.isConnecting = true ∨ st.remote.isSome then (.error alreadyMsg, st, [])
  else
    let st1 : Sess := { st with isConnecting := true, attempts := 0 }
    let orig := parseAddress targetAddr
    let r := connLoop env orig (connectAttempts proxyIP) 0 st1 firstFrame
    match r with
    | (.ok u, st2, acts) => (.ok u, st2, acts)
    | (.error m, st2, acts) => (.error m, { st2 with isConnecting := false }, acts)

/-- `a <+: b` as a Bool: JS `String.prototype.startsWith`. -/
def startsWithL (p s : List Char) : Bool := decide (p <+: s)

/-- An inbound WebSocket frame. -/
inductive MsgData where
  | text (s : List Char)
  | binary (bs : List Nat)

/-- The `message` listener of `handleSession` (_worker.js:186-220).  A throw
    anywhere in the handler is caught, reported as `ERROR:<message>` and
    followed by `cleanup()`. -/
def handleMessage (env : Nat → Except (List Char) Nat) (st : Sess) (m : MsgData) :
    Sess × List Act :=
  if st.isClosed then (st, [])
  else
    match m with
    | .text s =>
      if startsWithL "CONNECT:".toList s then
        let parts := splitBy (· = '|') s
        let targetAddr := (parts.headD []).drop 8
        let firstFrame := (parts.drop 1).headD []
        let proxyIP := (parts.drop 2).headD []
        if targetAddr.isEmpty then
          let c := cleanup st
          (c.1, Act.sendError invalidTargetMsg :: c.2)
        else
          match connectToRemote env st targetAddr firstFrame proxyIP with
          | (.ok _, st2, acts) => (st2, acts)
          | (.error msg, st2, acts) =>
            let c := cleanup st2
            (c.1, acts ++ Act.sendError msg :: c.2)
      else if startsWithL "DATA:".toList s then
        (st, if st.writer.isSome then [Act.writeOut (s.drop 5)] else [])
      else if s = "CLOSE".toList then cleanup st
      else (st, [])
    | .binary bs => (st, if st.writer.isSome then [Act.writeBin bs] else [])

/-- A teardown trigger: peer `CLOSE` frame, WebSocket `close`/`error` event,
    a caught per-message handler error, or the pump running out. -/
inductive Trigger where
  | peerClose
  | wsCloseEvt
  | wsErrEvt
  | msgError (msg : List Char)
  | pumpExhausted

/-- Effect of one trigger (each path of _worker.js that reaches `cleanup`):
    the message listener returns early when already closed; the pump tail
    sends `CLOSE` first only when not yet closed; the handler's catch sends
    `ERROR:` first. -/
def fireTrigger (st : Sess) : Trigger → Sess × List Act
  | .peerClose => if st.isClosed then (st, []) else cleanup st
  | .wsCloseEvt => cleanup st
  | .wsErrEvt => cleanup st
  | .msgError m =>
    let c := cleanup st
    (c.1, Act.sendError m :: c.2)
  | .pumpExhausted =>
    if st.isClosed then (st, [])
    else
      let c := cleanup st
      (c.1, Act.sendCloseMsg :: c.2)

/-- Fire a sequence of teardown triggers, accumulating the acts. -/
def runTriggers (ts : List Trigger) (st : Sess) : Sess × List Act :=
  match ts with
  | [] => (st, [])
  | t :: rest =>
    let r := fireTrigger st t
    let r2 := runTriggers rest r.1
    (r2.1, r.2 ++ r2.2)

/-- The underlying close operations of teardown. -/
def isCloseOp : Act → Bool
  | .releaseWriter => true
  | .releaseReader => true
  | .closeSocket => true
  | .closeWS => true
  | _ => false

/-! ## Outbound→peer pump (_worker.js:51-78, `pumpRemoteToWebSocket`) -/

/-- One observed outcome of `remoteReader.read()`.  The `closedDuring` flags
    record whether a concurrently scheduled task ran `cleanup` during the
    corresponding `await` (the read, or the retry delay): the JS event loop
    can interleave other session tasks exactly at those points. -/
inductive REvent where
  | chunk (sz : Nat) (wsOpen : Bool) (closedDuring : Bool)
  | eof (closedDuring : Bool)
  | rerr (closedDuring closedDuringDelay readableAfter : Bool)

/-- The pump-visible session state: the `isClosed` flag and the
    `connectionAttempts` counter. -/
structure PState where
  isClosed : Bool
  attempts : Nat
deriving DecidableEq, Repr

/-- Observable pump effects. -/
inductive PAct where
  | send (sz : Nat)
  | sendClose
  | sleep (ms : Nat)
  | restart
  | doCleanup
deriving DecidableEq, Repr

structure PumpRes where
  state : PState
  acts : List PAct
  finished : Bool
deriving DecidableEq, Repr

/-- The code after the try/catch (_worker.js:74-77):
    `if (!isClosed) { webSocket.send('CLOSE'); cleanup(); }`. -/
def pumpTail (st : PState) : PumpRes :=
  if st.isClosed then ⟨st, [], true⟩
  else ⟨⟨true, st.attempts⟩, [.sendClose, .doCleanup], true⟩

/-- `pumpRemoteToWebSocket` driven by a script of read outcomes.  The loop
    condition `!isClosed && remoteReader` is checked before each read
    (`remoteReader` is non-null exactly while the session is not torn down).
    A read error retries at most while `connectionAttempts < 3`, sleeping
    `1000 * connectionAttempts` ms, and restarts only if the socket is still
    readable — `cleanup` nulls `remoteSocket`, so after a teardown during the
    delay the optional chain `remoteSocket?.readable` is falsy.  An exhausted
    script means the pump is still blocked in `read()` (`finished = false`). -/
def pump (st : PState) (script : List REvent) : PumpRes :=
  if st.isClosed then pumpTail st
  else
    match script with
    | [] => ⟨st, [], false⟩
    | e :: rest =>
      match e with
      | .chunk sz wsOpen closedDuring =>
        let st1 : PState := ⟨closedDuring, st.attempts⟩
        if wsOpen = false then pumpTail st1
        else
          let r := pump st1 rest
          ⟨r.state, (if sz > 0 then [PAct.send sz] else []) ++ r.acts, r.finished⟩
      | .eof closedDuring => pumpTail ⟨closedDuring, st.attempts⟩
      | .rerr closedDuring closedDuringDelay readableAfter =>
        let st1 : PState := ⟨closedDuring, st.attempts⟩
        if st1.isClosed = false ∧ st1.attempts < 3 then
          let st2 : PState := ⟨closedDuringDelay, st1.attempts + 1⟩
          if readableAfter = true ∧ closedDuringDelay = false then
            let r := pump st2 rest
            ⟨r.state, PAct.sleep (1000 * st2.attempts) :: PAct.restart :: r.acts,
             r.finished⟩
          else
            let r := pumpTail st2
            ⟨r.state, PAct.sleep (1000 * st2.attempts) :: r.acts, r.finished⟩
        else pumpTail st1

/-- No concurrent teardown happens anywhere in the script. -/
def cleanEvent : REvent → Bool
  | .chunk _ _ cd => !cd
  | .eof cd => !cd
  | .rerr cd cdd _ => !cd && !cdd

def cleanScript (script : List REvent) : Bool := script.all cleanEvent

/-- Restart count of a pump trace. -/
def countRestarts (acts : List PAct) : Nat := acts.count .restart

/-- The delays of a pump trace, in order. -/
def delayList (acts : List PAct) : List Nat :=
  acts.filterMap (fun a => match a with | PAct.sleep ms => some ms | _ => none)

/-! ## Helper lemmas -/

theorem get_of_get? (l : List Nat) (i : Nat) (h : i < l.length) (b : Nat)
    (hb : l.get? i = some b) : l.get ⟨i, h⟩ = b := by
  rw [List.get?_eq_get h] at hb
  exact (Option.some.injEq _ _).mp hb.symm |>.symm

theorem get?_append_at (pre rest : List Nat) (i : Nat) :
    (pre ++ rest).get? (pre.length + i) = rest.get? i := by
  rw [List.get?_append_right (by omega)]
  congr 1
  omega

theorem readU16_isSome (resp : List Nat) (off : Nat) (h : off + 2 ≤ resp.length) :
    (readU16 resp off).isSome := by
  unfold readU16
  rw [List.get?_eq_get (by omega), List.get?_eq_get (by omega)]
  simp

theorem encU16_length (n : Nat) : (encU16 n).length = 2 := rfl

theorem get?_append_self (pre rest : List Nat) :
    (pre ++ rest).get? pre.length = rest.get? 0 := by
  have := get?_append_at pre rest 0
  simpa using this

theorem readU16_encU16 (pre rest : List Nat) (n : Nat) (h : n < 65536) :
    readU16 (pre ++ (encU16 n ++ rest)) pre.length = some n := by
  unfold readU16 encU16
  have h0 : (pre ++ ([n / 256 % 256, n % 256] ++ rest)).get? pre.length =
      some (n / 256 % 256) := by rw [get?_append_self]; rfl
  have h1 : (pre ++ ([n / 256 % 256, n % 256] ++ rest)).get? (pre.length + 1) =
      some (n % 256) := by rw [get?_append_at]; rfl
  rw [h0, h1]
  show some (n / 256 % 256 * 256 + n % 256) = some n
  congr 1
  omega

theorem drop_take_at (A mid rest : List Nat) :
    ((A ++ (mid ++ rest)).drop A.length).take mid.length = mid := by
  rw [List.drop_left, List.take_left]

/-! ## The parser never reads out of bounds (C2 machinery) -/

theorem svcLoop_ne_none (data : List Nat) (off : Nat) : svcLoop data off ≠ none := by
  induction off using svcLoop.induct data with
  | case1 x h4 hdead => rw [svcLoop]; simp [h4, hdead]
  | case2 x h4 hdead a b hb ha hz => rw [svcLoop]; simp only [dif_pos h4, if_neg hdead, ha, hb, dif_pos hz]; simp
  | case3 x h4 hdead b hb hz h5 => rw [svcLoop]; simp only [dif_pos h4, if_neg hdead, h5, hb, dif_neg hz]; simp
  | case4 x h4 hdead a b hb ha hz hne ih =>
    rw [svcLoop]; simp only [dif_pos h4, if_neg hdead, ha, hb, dif_neg hz, if_neg hne]
    exact ih
  | case5 x h4 hdead habs =>
    exact absurd (And.intro (readU16_isSome data x (by omega))
      (readU16_isSome data (x + 2) (by omega))) (by
        simp only [Option.isSome_iff_exists]
        rintro ⟨⟨a, ha⟩, ⟨b, hb⟩⟩
        exact habs a b ha hb)
  | case6 x h4 => rw [svcLoop]; simp [h4]

theorem parseHTTPSRecord_ne_none (data : List Nat) : parseHTTPSRecord data ≠ none := by
  unfold parseHTTPSRecord
  by_cases h2 : data.length < 2
  · simp [h2]
  · simp only [if_neg h2]
    by_cases h3 : 2 < data.length
    · simp only [dif_pos h3]
      by_cases hz : data.get ⟨2, h3⟩ = 0
      · simp only [if_pos hz]; exact svcLoop_ne_none data 3
      · simp only [if_neg hz]
        cases httpsSkipTarget data 2 with
        | none => simp
        | some o => exact svcLoop_ne_none data (o + 1)
    · simp [h3]

theorem ansLoop_ne_oob (resp : List Nat) (n : Nat) :
    ∀ off, ansLoop resp n off ≠ .oob := by
  induction n with
  | zero => intro off; rw [ansLoop]; simp
  | succ n ih =>
    intro off
    rw [ansLoop]
    by_cases h : off < resp.length
    · simp only [dif_pos h]
      set off1 := if resp.get ⟨off, h⟩ &&& 192 = 192 then off + 2 else skipName resp off + 1 with hoff1
      by_cases hb : off1 + 10 > resp.length
      · simp [hb]
      · simp only [if_neg hb]
        obtain ⟨rt, hrt⟩ := Option.isSome_iff_exists.mp (readU16_isSome resp off1 (by omega))
        obtain ⟨dl, hdl⟩ := Option.isSome_iff_exists.mp (readU16_isSome resp (off1 + 8) (by omega))
        rw [hrt, hdl]
        by_cases hd : off1 + 10 + dl > resp.length
        · simp [hd]
        · simp only [if_neg hd]
          by_cases ht : rt = 65
          · simp only [if_pos ht]
            obtain ⟨s, hs⟩ := Option.ne_none_iff_exists'.mp
              (parseHTTPSRecord_ne_none ((resp.drop (off1 + 10)).take dl))
            rw [hs]
            by_cases hse : s = ""
            · simp only [if_pos hse]; exact ih _
            · simp [hse]
          · simp only [if_neg ht]; exact ih _
    · simp [h]

theorem parseDNSResponse_ne_oob (resp : List Nat) : parseDNSResponse resp ≠ .oob := by
  unfold parseDNSResponse
  by_cases h : resp.length < 12
  · simp [h]
  · simp only [if_neg h]
    obtain ⟨an, han⟩ := Option.isSome_iff_exists.mp (readU16_isSome resp 6 (by omega))
    rw [han]
    by_cases hz : an = 0
    · simp [hz]
    · simp only [if_neg hz]; exact ansLoop_ne_oob resp an _

/-! ## Parsing encoded messages: name skipping -/

theorem lt_of_get?_eq_some (l : List Nat) (i b : Nat) (h : l.get? i = some b) :
    i < l.length := by
  by_contra hc
  rw [List.get?_eq_none.mpr (by omega)] at h
  cases h

theorem skipName_zero (resp : List Nat) (off : Nat) (h : resp.get? off = some 0) :
    skipName resp off = off := by
  have hlt : off < resp.length := lt_of_get?_eq_some resp off 0 h
  rw [skipName, dif_pos hlt, if_pos (get_of_get? resp off hlt 0 h)]

theorem skipName_step (resp : List Nat) (off b : Nat) (h : resp.get? off = some b)
    (hb : b ≠ 0) : skipName resp off = skipName resp (off + (b + 1)) := by
  have hlt : off < resp.length := lt_of_get?_eq_some resp off b h
  have hg := get_of_get? resp off hlt b h
  rw [skipName, dif_pos hlt, hg, if_neg hb]

theorem skipName_encode (ls : List (List Nat)) (pre rest : List Nat) (hWF : WFlabels ls) :
    skipName (pre ++ (labelsBytes ls ++ (0 :: rest))) pre.length =
      pre.length + (labelsBytes ls).length := by
  induction ls generalizing pre with
  | nil =>
    have h : (pre ++ (labelsBytes [] ++ (0 :: rest))).get? pre.length = some 0 := by
      simp only [labelsBytes, List.map_nil, List.flatten_nil, List.nil_append]
      rw [get?_append_self]
      rfl
    rw [skipName_zero _ _ h]
    simp [labelsBytes]
  | cons l ls ih =>
    have hlb : labelsBytes (l :: ls) = (l.length :: l) ++ labelsBytes ls := by
      simp [labelsBytes]
    have hl1 : 1 ≤ l.length := (hWF l (by simp)).1
    have hshape : pre ++ (labelsBytes (l :: ls) ++ (0 :: rest)) =
        (pre ++ (l.length :: l)) ++ (labelsBytes ls ++ (0 :: rest)) := by
      rw [hlb]; simp [List.append_assoc]
    have hget : (pre ++ (labelsBytes (l :: ls) ++ (0 :: rest))).get? pre.length =
        some l.length := by
      rw [hlb]
      have : (l.length :: l) ++ labelsBytes ls ++ (0 :: rest) =
          (l.length :: (l ++ (labelsBytes ls ++ (0 :: rest)))) := by
        simp [List.append_assoc]
      rw [List.append_assoc] at this ⊢
      rw [this, get?_append_self]
      rfl
    rw [skipName_step _ _ l.length hget (by omega), hshape]
    have hoff : pre.length + (l.length + 1) = (pre ++ (l.length :: l)).length := by
      simp
    rw [hoff, ih (pre ++ (l.length :: l)) (fun x hx => hWF x (by simp [hx]))]
    rw [hlb]
    simp only [List.length_append, List.length_cons]
    omega

theorem httpsSkipTarget_zero (resp : List Nat) (off : Nat) (h : resp.get? off = some 0) :
    httpsSkipTarget resp off = some off := by
  have hlt : off < resp.length := lt_of_get?_eq_some resp off 0 h
  rw [httpsSkipTarget, dif_pos hlt, if_pos (get_of_get? resp off hlt 0 h)]

theorem httpsSkipTarget_step (resp : List Nat) (off b : Nat) (h : resp.get? off = some b)
    (hb : b ≠ 0) (hin : off + (b + 1) ≤ resp.length) :
    httpsSkipTarget resp off = httpsSkipTarget resp (off + (b + 1)) := by
  have hlt : off < resp.length := lt_of_get?_eq_some resp off b h
  have hg := get_of_get? resp off hlt b h
  rw [httpsSkipTarget, dif_pos hlt, hg, if_neg hb, if_neg (by omega)]

theorem httpsSkipTarget_encode (ls : List (List Nat)) (pre rest : List Nat)
    (hWF : WFlabels ls) :
    httpsSkipTarget (pre ++ (labelsBytes ls ++ (0 :: rest))) pre.length =
      some (pre.length + (labelsBytes ls).length) := by
  induction ls generalizing pre with
  | nil =>
    have h : (pre ++ (labelsBytes [] ++ (0 :: rest))).get? pre.length = some 0 := by
      simp only [labelsBytes, List.map_nil, List.flatten_nil, List.nil_append]
      rw [get?_append_self]
      rfl
    rw [httpsSkipTarget_zero _ _ h]
    simp [labelsBytes]
  | cons l ls ih =>
    have hlb : labelsBytes (l :: ls) = (l.length :: l) ++ labelsBytes ls := by
      simp [labelsBytes]
    have hl1 : 1 ≤ l.length := (hWF l (by simp)).1
    have hshape : pre ++ (labelsBytes (l :: ls) ++ (0 :: rest)) =
        (pre ++ (l.length :: l)) ++ (labelsBytes ls ++ (0 :: rest)) := by
      rw [hlb]; simp [List.append_assoc]
    have hget : (pre ++ (labelsBytes (l :: ls) ++ (0 :: rest))).get? pre.length =
        some l.length := by
      rw [hlb]
      have : (l.length :: l) ++ labelsBytes ls ++ (0 :: rest) =
          (l.length :: (l ++ (labelsBytes ls ++ (0 :: rest)))) := by
        simp [List.append_assoc]
      rw [List.append_assoc] at this ⊢
      rw [this, get?_append_self]
      rfl
    have hin : pre.length + (l.length + 1) ≤
        (pre ++ (labelsBytes (l :: ls) ++ (0 :: rest))).length := by
      rw [hlb]; simp
    rw [httpsSkipTarget_step _ _ l.length hget (by omega) hin, hshape]
    have hoff : pre.length + (l.length + 1) = (pre ++ (l.length :: l)).length := by
      simp
    rw [hoff, ih (pre ++ (l.length :: l)) (fun x hx => hWF x (by simp [hx]))]
    rw [hlb]
    simp only [List.length_append, List.length_cons, Option.some.injEq]
    omega

/-! ## Parsing encoded messages: the SvcParam scan -/

theorem encParam_length (p : SvcParam) : (encParam p).length = 4 + p.value.length := by
  simp [encParam, encU16]
  omega

theorem svcLoop_end (A : List Nat) : svcLoop A A.length = some "" := by
  rw [svcLoop, dif_neg (by omega)]

theorem svcLoop_reads (A rest : List Nat) (p : SvcParam) (hk : p.key < 65536)
    (hl : p.value.length < 65536) :
    readU16 (A ++ (encParam p ++ rest)) A.length = some p.key ∧
    readU16 (A ++ (encParam p ++ rest)) (A.length + 2) = some p.value.length := by
  constructor
  · have hsh : A ++ (encParam p ++ rest) =
        A ++ (encU16 p.key ++ (encU16 p.value.length ++ (p.value ++ rest))) := by
      simp [encParam, List.append_assoc]
    rw [hsh]
    exact readU16_encU16 _ _ _ hk
  · have hsh : A ++ (encParam p ++ rest) =
        (A ++ encU16 p.key) ++ (encU16 p.value.length ++ (p.value ++ rest)) := by
      simp [encParam, List.append_assoc]
    have hlen2 : A.length + 2 = (A ++ encU16 p.key).length := by simp [encU16]
    rw [hsh, hlen2]
    exact readU16_encU16 _ _ _ hl

theorem svcLoop_param_zero (A rest : List Nat) (p : SvcParam) (hk : p.key < 65536)
    (hl0 : p.value.length = 0) :
    svcLoop (A ++ (encParam p ++ rest)) A.length = some "" := by
  have hdlen : (A ++ (encParam p ++ rest)).length =
      A.length + 4 + p.value.length + rest.length := by
    simp only [List.length_append, encParam_length]
    omega
  obtain ⟨h1, h2⟩ := svcLoop_reads A rest p hk (by omega)
  rw [svcLoop, dif_pos (by omega), if_neg (by omega)]
  simp only [h1, h2]
  rw [dif_pos (Or.inl hl0)]

theorem svcLoop_param_step (A rest : List Nat) (p : SvcParam) (hk : p.key < 65536)
    (hl : p.value.length < 65536) (hlen : 1 ≤ p.value.length) :
    svcLoop (A ++ (encParam p ++ rest)) A.length =
      if p.key = 5 then some (b64encode p.value)
      else svcLoop (A ++ (encParam p ++ rest)) (A.length + (encParam p).length) := by
  have hdlen : (A ++ (encParam p ++ rest)).length =
      A.length + 4 + p.value.length + rest.length := by
    simp only [List.length_append, encParam_length]
    omega
  obtain ⟨h1, h2⟩ := svcLoop_reads A rest p hk hl
  have hval : (((A ++ (encParam p ++ rest)).drop (A.length + 4)).take p.value.length) =
      p.value := by
    have hsh : A ++ (encParam p ++ rest) =
        (A ++ (encU16 p.key ++ encU16 p.value.length)) ++ (p.value ++ rest) := by
      simp [encParam, List.append_assoc]
    have hlen4 : A.length + 4 = (A ++ (encU16 p.key ++ encU16 p.value.length)).length := by
      simp [encU16]
    rw [hsh, hlen4]
    exact drop_take_at _ _ _
  rw [svcLoop, dif_pos (by omega), if_neg (by omega)]
  simp only [h1, h2]
  rw [dif_neg (by omega)]
  simp only [hval, encParam_length]
  have harith : A.length + (4 + p.value.length) = A.length + 4 + p.value.length := by omega
  rw [harith]

theorem svcLoop_encode_found (preP : List SvcParam) (A : List Nat) (v : List Nat)
    (postP : List SvcParam)
    (hpre : ∀ p ∈ preP, p.key ≠ 5 ∧ p.key < 65536 ∧ 1 ≤ p.value.length ∧ p.value.length < 65536)
    (hv1 : 1 ≤ v.length) (hv2 : v.length < 65536) :
    svcLoop (A ++ (((preP ++ ⟨5, v⟩ :: postP).map encParam).flatten)) A.length =
      some (b64encode v) := by
  induction preP generalizing A with
  | nil =>
    have hsh : A ++ (((([] : List SvcParam) ++ ⟨5, v⟩ :: postP).map encParam).flatten) =
        A ++ (encParam ⟨5, v⟩ ++ ((postP.map encParam).flatten)) := by
      simp
    rw [hsh, svcLoop_param_step _ _ _ (by norm_num) hv2 hv1]
    simp
  | cons p preP ih =>
    obtain ⟨hk5, hk, hl1, hl2⟩ := hpre p (by simp)
    have hsh : A ++ ((((p :: preP) ++ ⟨5, v⟩ :: postP).map encParam).flatten) =
        A ++ (encParam p ++ (((preP ++ ⟨5, v⟩ :: postP).map encParam).flatten)) := by
      simp
    rw [hsh, svcLoop_param_step _ _ _ hk hl2 hl1, if_neg hk5,
      show A.length + (encParam p).length = (A ++ encParam p).length by simp,
      ← List.append_assoc]
    exact ih (A ++ encParam p) (fun q hq => hpre q (by simp [hq]))

theorem svcLoop_encode_none (ps : List SvcParam) (A : List Nat)
    (h : ∀ p ∈ ps, p.key ≠ 5 ∧ p.key < 65536 ∧ p.value.length < 65536) :
    svcLoop (A ++ ((ps.map encParam).flatten)) A.length = some "" := by
  induction ps generalizing A with
  | nil => simpa using svcLoop_end A
  | cons p ps ih =>
    obtain ⟨hk5, hk, hl2⟩ := h p (by simp)
    have hsh : A ++ (((p :: ps).map encParam).flatten) =
        A ++ (encParam p ++ ((ps.map encParam).flatten)) := by
      simp
    by_cases hz : p.value.length = 0
    · rw [hsh, svcLoop_param_zero _ _ _ hk hz]
    · rw [hsh, svcLoop_param_step _ _ _ hk hl2 (by omega), if_neg hk5,
        show A.length + (encParam p).length = (A ++ encParam p).length by simp,
        ← List.append_assoc]
      exact ih (A ++ encParam p) (fun q hq => h q (by simp [hq]))

/-! ## Parsing encoded HTTPS-record data -/

theorem b64encode_ne_empty (v : List Nat) (h : v ≠ []) : b64encode v ≠ "" := by
  unfold b64encode
  intro hc
  have hdata : b64encodeCore (v.map (· % 256)) = [] := by
    have := congrArg String.data hc
    simpa using this
  cases v with
  | nil => exact h rfl
  | cons a t =>
    cases t with
    | nil => simp [b64encodeCore] at hdata
    | cons b t2 =>
      cases t2 with
      | nil => simp [b64encodeCore] at hdata
      | cons c t3 => simp [b64encodeCore] at hdata

theorem parseHTTPSRecord_encode (prio : List Nat) (target : List (List Nat))
    (ps : List SvcParam) (hp : prio.length = 2) (ht : WFlabels target) :
    parseHTTPSRecord (encHTTPS prio target ps) =
      svcLoop (encHTTPS prio target ps) (3 + (labelsBytes target).length) := by
  have hdata : encHTTPS prio target ps =
      prio ++ (labelsBytes target ++ (0 :: (ps.map encParam).flatten)) := by
    simp [encHTTPS]
  have hlen : 3 + (labelsBytes target).length ≤ (encHTTPS prio target ps).length := by
    rw [hdata]
    simp only [List.length_append, List.length_cons, hp]
    omega
  have hg2 : (encHTTPS prio target ps).get? 2 =
      (labelsBytes target ++ (0 :: (ps.map encParam).flatten)).get? 0 := by
    rw [hdata, ← hp]
    exact get?_append_self _ _
  unfold parseHTTPSRecord
  rw [if_neg (by omega), dif_pos (by omega)]
  cases target with
  | nil =>
    have h0 : (encHTTPS prio [] ps).get? 2 = some 0 := by
      rw [hg2]
      simp [labelsBytes]
    rw [if_pos (get_of_get? _ 2 (by omega) 0 h0)]
    simp [labelsBytes]
  | cons l ts =>
    have hl1 : 1 ≤ l.length := (ht l (by simp)).1
    have h0 : (encHTTPS prio (l :: ts) ps).get? 2 = some l.length := by
      rw [hg2]
      have : labelsBytes (l :: ts) ++ (0 :: (ps.map encParam).flatten) =
          l.length :: (l ++ (labelsBytes ts ++ (0 :: (ps.map encParam).flatten))) := by
        simp [labelsBytes, List.append_assoc]
      rw [this]
      rfl
    rw [if_neg (by rw [get_of_get? _ 2 (by omega) l.length h0]; omega)]
    have hskip : httpsSkipTarget (encHTTPS prio (l :: ts) ps) 2 =
        some (2 + (labelsBytes (l :: ts)).length) := by
      rw [hdata, ← hp]
      exact httpsSkipTarget_encode (l :: ts) prio ((ps.map encParam).flatten) ht
    simp only [hskip]
    congr 1
    omega

theorem parseHTTPSRecord_encode_found (prio : List Nat) (target : List (List Nat))
    (preP : List SvcParam) (v : List Nat) (postP : List SvcParam)
    (hp : prio.length = 2) (ht : WFlabels target)
    (hpre : ∀ p ∈ preP, p.key ≠ 5 ∧ p.key < 65536 ∧ 1 ≤ p.value.length ∧ p.value.length < 65536)
    (hv1 : 1 ≤ v.length) (hv2 : v.length < 65536) :
    parseHTTPSRecord (encHTTPS prio target (preP ++ ⟨5, v⟩ :: postP)) =
      some (b64encode v) := by
  rw [parseHTTPSRecord_encode _ _ _ hp ht]
  have hA : encHTTPS prio target (preP ++ ⟨5, v⟩ :: postP) =
      (prio ++ (labelsBytes target ++ [0])) ++
        (((preP ++ ⟨5, v⟩ :: postP).map encParam).flatten) := by
    simp [encHTTPS, List.append_assoc]
  have hoff : 3 + (labelsBytes target).length =
      (prio ++ (labelsBytes target ++ [0])).length := by
    simp [hp]
    omega
  rw [hA, hoff]
  exact svcLoop_encode_found preP _ v postP hpre hv1 hv2

theorem parseHTTPSRecord_encode_none (prio : List Nat) (target : List (List Nat))
    (ps : List SvcParam) (hp : prio.length = 2) (ht : WFlabels target)
    (h : ∀ p ∈ ps, p.key ≠ 5 ∧ p.key < 65536 ∧ p.value.length < 65536) :
    parseHTTPSRecord (encHTTPS prio target ps) = some "" := by
  rw [parseHTTPSRecord_encode _ _ _ hp ht]
  have hA : encHTTPS prio target ps =
      (prio ++ (labelsBytes target ++ [0])) ++ ((ps.map encParam).flatten) := by
    simp [encHTTPS, List.append_assoc]
  have hoff : 3 + (labelsBytes target).length =
      (prio ++ (labelsBytes target ++ [0])).length := by
    simp [hp]
    omega
  rw [hA, hoff]
  exact svcLoop_encode_none ps _ h

/-! ## Parsing one encoded answer record -/

theorem land192_of_ptr (x : Nat) (hx : x < 64) : (192 + x) &&& 192 = 192 := by
  have h : ∀ y : Fin 64, (192 + y.val) &&& 192 = 192 := by decide
  exact h ⟨x, hx⟩

theorem land192_of_label (x : Nat) (hx : x < 64) : x &&& 192 ≠ 192 := by
  have h : ∀ y : Fin 64, ¬ (y.val &&& 192 = 192) := by decide
  exact h ⟨x, hx⟩

theorem encName_length_pos (nm : DName) : 1 ≤ (encName nm).length := by
  cases nm with
  | ptr t => simp [encName]
  | plain ls => simp [encName]

theorem encRR_length (r : RR) (hmeta : r.meta.length = 6) :
    (encRR r).length = (encName r.name).length + 10 + r.rdata.length := by
  simp only [encRR, List.length_append, encU16_length, hmeta]

/-- The NAME-skipping step of the answer loop computes the name's encoded
    length: a pointer is skipped as two bytes, an uncompressed name by
    walking its labels. -/
theorem ansName_off (resp pre rest' : List Nat) (nm : DName) (hWF : WFname nm)
    (hr : resp = pre ++ (encName nm ++ rest')) (h : pre.length < resp.length) :
    (if resp.get ⟨pre.length, h⟩ &&& 192 = 192 then pre.length + 2
     else skipName resp pre.length + 1) = pre.length + (encName nm).length := by
  subst hr
  cases nm with
  | ptr t =>
    have ht : t < 16384 := hWF
    have hg : (pre ++ (encName (DName.ptr t) ++ rest')).get? pre.length =
        some (192 + t / 256) := by
      rw [get?_append_self]
      rfl
    have hb := get_of_get? _ pre.length h _ hg
    rw [hb, if_pos (land192_of_ptr (t / 256) (by omega))]
    rfl
  | plain ls =>
    cases ls with
    | nil =>
      have hg : (pre ++ (encName (DName.plain []) ++ rest')).get? pre.length =
          some 0 := by
        rw [get?_append_self]
        rfl
      have hb := get_of_get? _ pre.length h _ hg
      rw [hb, if_neg (land192_of_label 0 (by omega))]
      have hsh : pre ++ (encName (DName.plain []) ++ rest') =
          pre ++ (labelsBytes [] ++ (0 :: rest')) := by
        simp [encName, labelsBytes]
      rw [hsh, skipName_encode [] pre rest' (by intro l hl; cases hl)]
      simp [encName, labelsBytes]
    | cons l ts =>
      have hl63 : 1 ≤ l.length ∧ l.length ≤ 63 := hWF l (by simp)
      have hg : (pre ++ (encName (DName.plain (l :: ts)) ++ rest')).get? pre.length =
          some l.length := by
        have hsh : encName (DName.plain (l :: ts)) ++ rest' =
            l.length :: (l ++ (labelsBytes ts ++ (0 :: rest'))) := by
          simp [encName, labelsBytes, List.append_assoc]
        rw [hsh, get?_append_self]
        rfl
      have hb := get_of_get? _ pre.length h _ hg
      rw [hb, if_neg (land192_of_label l.length (by omega))]
      have hsh : pre ++ (encName (DName.plain (l :: ts)) ++ rest') =
          pre ++ (labelsBytes (l :: ts) ++ (0 :: rest')) := by
        simp [encName, labelsBytes, List.append_assoc]
      rw [hsh, skipName_encode (l :: ts) pre rest' hWF]
      simp [encName]
      omega

/-- One iteration of the answer loop over an encoded record: the record's
    type and data are recovered, and the loop either returns the parsed ECH
    string or moves past the record. -/
theorem ansLoop_cons (pre rest : List Nat) (r : RR) (hWF : WFrr r) (n : Nat) :
    ansLoop (pre ++ (encRR r ++ rest)) (n + 1) pre.length =
      if r.rtype = 65 then
        match parseHTTPSRecord r.rdata with
        | none => DNSResult.oob
        | some s =>
          if s = "" then
            ansLoop (pre ++ (encRR r ++ rest)) n (pre.length + (encRR r).length)
          else .found s
      else ansLoop (pre ++ (encRR r ++ rest)) n (pre.length + (encRR r).length) := by
  obtain ⟨hnm, hty, hmeta, hrd⟩ := hWF
  have hlen : (pre ++ (encRR r ++ rest)).length =
      pre.length + (encName r.name).length + 10 + r.rdata.length + rest.length := by
    simp only [List.length_append, encRR_length r hmeta]
    omega
  have hpos : pre.length < (pre ++ (encRR r ++ rest)).length := by
    have := encName_length_pos r.name
    omega
  rw [ansLoop, dif_pos hpos]
  have hname := ansName_off (pre ++ (encRR r ++ rest)) pre
    (encU16 r.rtype ++ (r.meta ++ (encU16 r.rdata.length ++ (r.rdata ++ rest))))
    r.name hnm (by simp [encRR, List.append_assoc]) hpos
  simp only [hname]
  rw [if_neg (by omega)]
  have hr1 : readU16 (pre ++ (encRR r ++ rest)) (pre.length + (encName r.name).length) =
      some r.rtype := by
    have hsh : pre ++ (encRR r ++ rest) = (pre ++ encName r.name) ++
        (encU16 r.rtype ++ (r.meta ++ (encU16 r.rdata.length ++ (r.rdata ++ rest)))) := by
      simp [encRR, List.append_assoc]
    rw [hsh, show pre.length + (encName r.name).length = (pre ++ encName r.name).length
      by simp]
    exact readU16_encU16 _ _ _ hty
  have hr2 : readU16 (pre ++ (encRR r ++ rest))
      (pre.length + (encName r.name).length + 8) = some r.rdata.length := by
    have hsh : pre ++ (encRR r ++ rest) = (pre ++ (encName r.name ++ (encU16 r.rtype ++
        r.meta))) ++ (encU16 r.rdata.length ++ (r.rdata ++ rest)) := by
      simp [encRR, List.append_assoc]
    rw [hsh, show pre.length + (encName r.name).length + 8 =
      (pre ++ (encName r.name ++ (encU16 r.rtype ++ r.meta))).length
      by simp [encU16, hmeta]; omega]
    exact readU16_encU16 _ _ _ hrd
  simp only [hr1, hr2]
  rw [if_neg (by omega)]
  have hval : (((pre ++ (encRR r ++ rest)).drop
      (pre.length + (encName r.name).length + 10)).take r.rdata.length) = r.rdata := by
    have hsh : pre ++ (encRR r ++ rest) = (pre ++ (encName r.name ++ (encU16 r.rtype ++
        (r.meta ++ encU16 r.rdata.length)))) ++ (r.rdata ++ rest) := by
      simp [encRR, List.append_assoc]
    rw [hsh, show pre.length + (encName r.name).length + 10 =
      (pre ++ (encName r.name ++ (encU16 r.rtype ++ (r.meta ++ encU16 r.rdata.length)))).length
      by simp [encU16, hmeta]; omega]
    exact drop_take_at _ _ _
  simp only [hval]
  have hoffeq : pre.length + (encName r.name).length + 10 + r.rdata.length =
      pre.length + (encRR r).length := by
    rw [encRR_length r hmeta]
    omega
  rw [hoffeq]

/-! ## Parsing a whole encoded response -/

/-- The answer loop walks past any sequence of records that are either not
    HTTPS records or HTTPS records from which no ECH value is extracted. -/
theorem ansLoop_pres (preRRs : List RR) (A rest : List Nat) (k : Nat)
    (h : ∀ r ∈ preRRs, WFrr r ∧ (r.rtype ≠ 65 ∨ parseHTTPSRecord r.rdata = some "")) :
    ansLoop (A ++ ((preRRs.map encRR).flatten ++ rest)) (preRRs.length + k) A.length =
      ansLoop (A ++ ((preRRs.map encRR).flatten ++ rest)) k
        (A.length + ((preRRs.map encRR).flatten).length) := by
  induction preRRs generalizing A with
  | nil => simp
  | cons r rrs ih =>
    obtain ⟨hWF, hskip⟩ := h r (by simp)
    have hmr : r.meta.length = 6 := hWF.2.2.1
    have hsh : A ++ (((r :: rrs).map encRR).flatten ++ rest) =
        A ++ (encRR r ++ ((rrs.map encRR).flatten ++ rest)) := by
      simp [List.append_assoc]
    have hcount : (r :: rrs).length + k = (rrs.length + k) + 1 := by
      rw [List.length_cons]
      omega
    rw [hsh, hcount, ansLoop_cons A ((rrs.map encRR).flatten ++ rest) r hWF (rrs.length + k)]
    have hrest :
        ansLoop (A ++ (encRR r ++ ((rrs.map encRR).flatten ++ rest))) (rrs.length + k)
          (A.length + (encRR r).length) =
        ansLoop (A ++ (encRR r ++ ((rrs.map encRR).flatten ++ rest))) k
          (A.length + (((r :: rrs).map encRR).flatten).length) := by
      rw [show A ++ (encRR r ++ ((rrs.map encRR).flatten ++ rest)) =
            (A ++ encRR r) ++ ((rrs.map encRR).flatten ++ rest) from
          (List.append_assoc ..).symm,
        show A.length + (encRR r).length = (A ++ encRR r).length from by simp]
      rw [ih (A ++ encRR r) (fun q hq => h q (by simp [hq]))]
      congr 1
      simp
      omega
    rcases hskip with hty | hparse
    · rw [if_neg hty]
      exact hrest
    · by_cases hty : r.rtype = 65
      · rw [if_pos hty]
        simp only [hparse]
        rw [if_pos trivial]
        exact hrest
      · rw [if_neg hty]
        exact hrest

/-- The answer loop stops at the first HTTPS record that yields an ECH
    string. -/
theorem ansLoop_found_target (A rest : List Nat) (r : RR) (hWF : WFrr r)
    (hty : r.rtype = 65) (s : String) (hs : parseHTTPSRecord r.rdata = some s)
    (hne : s ≠ "") (k : Nat) :
    ansLoop (A ++ (encRR r ++ rest)) (k + 1) A.length = .found s := by
  rw [ansLoop_cons A rest r hWF k, if_pos hty]
  simp only [hs]
  rw [if_neg hne]

/-- On an encoded response with a nonzero answer count, `parseDNSResponse`
    skips the header and the echoed question and runs the answer loop at the
    first answer's offset. -/
theorem parseDNSResponse_encode (m : DNSResp) (hWF6 : m.header6.length = 6)
    (ht4 : m.tail4.length = 4) (hqt : m.qtail.length = 4) (hql : WFlabels m.qlabels)
    (han0 : m.ancount ≠ 0) (hanlt : m.ancount < 65536) :
    parseDNSResponse (encResp m) =
      ansLoop (encResp m) m.ancount (12 + (labelsBytes m.qlabels).length + 5) := by
  have hlen : (encResp m).length =
      17 + (labelsBytes m.qlabels).length + ((m.answers.map encRR).flatten).length := by
    simp only [encResp, List.length_append, encU16_length, hWF6, ht4, hqt,
      List.length_singleton]
    omega
  unfold parseDNSResponse
  rw [if_neg (by omega)]
  have h6 : readU16 (encResp m) 6 = some m.ancount := by
    have hsh : encResp m = m.header6 ++ (encU16 m.ancount ++ (m.tail4 ++
        (labelsBytes m.qlabels ++ ([0] ++ (m.qtail ++ (m.answers.map encRR).flatten))))) := by
      simp [encResp, List.append_assoc]
    rw [hsh, show (6 : Nat) = m.header6.length from hWF6.symm]
    exact readU16_encU16 _ _ _ hanlt
  simp only [h6]
  rw [if_neg han0]
  have hskip : skipName (encResp m) 12 = 12 + (labelsBytes m.qlabels).length := by
    have hsh : encResp m = (m.header6 ++ (encU16 m.ancount ++ m.tail4)) ++
        (labelsBytes m.qlabels ++ (0 :: (m.qtail ++ (m.answers.map encRR).flatten))) := by
      simp [encResp, List.append_assoc]
    have h12 : (12 : Nat) = (m.header6 ++ (encU16 m.ancount ++ m.tail4)).length := by
      simp [hWF6, ht4, encU16_length]
    rw [hsh, h12, skipName_encode m.qlabels _ _ hql, ← h12]
  rw [hskip]

/-- A well-formed encoded response whose answers `preRRs ++ tgt :: postRRs`
    put an HTTPS record `tgt` after skippable records: the parser returns the
    base64-encoded key-5 value of `tgt`, provided the SvcParams before key 5
    have nonzero length. -/
theorem parseDNSResponse_found
    (header6 tail4 qtail prio meta : List Nat)
    (qlabels target : List (List Nat)) (nm : DName)
    (preRRs postRRs : List RR) (preP postP : List SvcParam) (v : List Nat)
    (hh6 : header6.length = 6) (ht4 : tail4.length = 4) (hqt : qtail.length = 4)
    (hql : WFlabels qlabels)
    (hpreRR : ∀ r ∈ preRRs, WFrr r ∧ (r.rtype ≠ 65 ∨ parseHTTPSRecord r.rdata = some ""))
    (hnm : WFname nm) (hmeta : meta.length = 6)
    (hprio : prio.length = 2) (htgt : WFlabels target)
    (hpreP : ∀ p ∈ preP, p.key ≠ 5 ∧ p.key < 65536 ∧ 1 ≤ p.value.length ∧
      p.value.length < 65536)
    (hv1 : 1 ≤ v.length) (hv2 : v.length < 65536)
    (hrdlen : (encHTTPS prio target (preP ++ ⟨5, v⟩ :: postP)).length < 65536)
    (han : preRRs.length + (postRRs.length + 1) < 65536) :
    parseDNSResponse (encResp ⟨header6, preRRs.length + (postRRs.length + 1), tail4,
      qlabels, qtail,
      preRRs ++ (⟨nm, 65, meta, encHTTPS prio target (preP ++ ⟨5, v⟩ :: postP)⟩ : RR)
        :: postRRs⟩) = .found (b64encode v) := by
  set tgt : RR := ⟨nm, 65, meta, encHTTPS prio target (preP ++ ⟨5, v⟩ :: postP)⟩
    with htgtdef
  set m : DNSResp := ⟨header6, preRRs.length + (postRRs.length + 1), tail4, qlabels,
    qtail, preRRs ++ tgt :: postRRs⟩ with hmdef
  have hWFtgt : WFrr tgt := ⟨hnm, by simp [htgtdef], hmeta, hrdlen⟩
  have hparse : parseHTTPSRecord tgt.rdata = some (b64encode v) :=
    parseHTTPSRecord_encode_found prio target preP v postP hprio htgt hpreP hv1 hv2
  have hne : b64encode v ≠ "" := b64encode_ne_empty v (by
    intro hnil
    rw [hnil] at hv1
    simp at hv1)
  rw [parseDNSResponse_encode m hh6 ht4 hqt hql (by simp only [hmdef]; omega)
    (by simp only [hmdef]; omega)]
  have hsh : encResp m =
      (header6 ++ (encU16 m.ancount ++ (tail4 ++ (labelsBytes qlabels ++
        (0 :: qtail))))) ++
      (((preRRs.map encRR)).flatten ++ (encRR tgt ++ ((postRRs.map encRR)).flatten)) := by
    simp [encResp, List.append_assoc]
  have hofflen : 12 + (labelsBytes m.qlabels).length + 5 =
      (header6 ++ (encU16 m.ancount ++ (tail4 ++ (labelsBytes qlabels ++
        (0 :: qtail))))).length := by
    show 12 + (labelsBytes qlabels).length + 5 = _
    simp only [List.length_append, List.length_cons, encU16_length, hh6, ht4, hqt]
    omega
  rw [hofflen, hsh]
  show ansLoop _ (preRRs.length + (postRRs.length + 1)) _ = _
  rw [ansLoop_pres preRRs _ _ (postRRs.length + 1) hpreRR]
  rw [show (header6 ++ (encU16 m.ancount ++ (tail4 ++ (labelsBytes qlabels ++
        (0 :: qtail))))) ++
      (((preRRs.map encRR)).flatten ++ (encRR tgt ++ ((postRRs.map encRR)).flatten)) =
      ((header6 ++ (encU16 m.ancount ++ (tail4 ++ (labelsBytes qlabels ++
        (0 :: qtail))))) ++ ((preRRs.map encRR)).flatten) ++
      (encRR tgt ++ ((postRRs.map encRR)).flatten) from (List.append_assoc ..).symm]
  rw [show (header6 ++ (encU16 m.ancount ++ (tail4 ++ (labelsBytes qlabels ++
        (0 :: qtail))))).length + ((preRRs.map encRR)).flatten.length =
      ((header6 ++ (encU16 m.ancount ++ (tail4 ++ (labelsBytes qlabels ++
        (0 :: qtail))))) ++ ((preRRs.map encRR)).flatten).length from by simp; omega]
  exact ansLoop_found_target _ _ tgt hWFtgt rfl (b64encode v) hparse hne postRRs.length

/-- Companion to `parseDNSResponse_found`: if every answer is skippable (not
    HTTPS, or HTTPS yielding no ECH string), the parser returns the empty
    not-found result. -/
theorem parseDNSResponse_encode_notFound (m : DNSResp)
    (hh6 : m.header6.length = 6) (ht4 : m.tail4.length = 4) (hqt : m.qtail.length = 4)
    (hql : WFlabels m.qlabels)
    (hanc : m.ancount = m.answers.length) (han0 : m.ancount ≠ 0)
    (hanlt : m.ancount < 65536)
    (hall : ∀ r ∈ m.answers, WFrr r ∧ (r.rtype ≠ 65 ∨ parseHTTPSRecord r.rdata = some "")) :
    parseDNSResponse (encResp m) = .notFound := by
  rw [parseDNSResponse_encode m hh6 ht4 hqt hql han0 hanlt]
  have hsh : encResp m =
      (m.header6 ++ (encU16 m.ancount ++ (m.tail4 ++ (labelsBytes m.qlabels ++
        (0 :: m.qtail))))) ++ ((m.answers.map encRR).flatten ++ []) := by
    simp [encResp, List.append_assoc]
  have hofflen : 12 + (labelsBytes m.qlabels).length + 5 =
      (m.header6 ++ (encU16 m.ancount ++ (m.tail4 ++ (labelsBytes m.qlabels ++
        (0 :: m.qtail))))).length := by
    simp only [List.length_append, List.length_cons, encU16_length, hh6, ht4, hqt]
    omega
  rw [hofflen, hsh, hanc, show m.answers.length = m.answers.length + 0 from rfl]
  rw [ansLoop_pres m.answers _ [] 0 hall]
  rw [ansLoop]

/-! ## Claim theorems for the DNS parser -/

/-- C1, counterexample.  The claim states that for ANY well-formed response
    whose HTTPS answer data includes a SvcParam with key 5, the parser
    returns that value in standard base64.  This encoded response is
    well-formed DNS: ANCOUNT = 1, a root question, and one HTTPS (type 65)
    answer whose RDATA holds the SvcParams (2, "") — a legal zero-length
    parameter such as no-default-alpn — followed by (5, [1]).  The Go loop
    `break`s on the zero-length parameter (websocket.go:365) and returns the
    empty not-found result instead of base64([1]) = "AQ==". -/
theorem c1_counterexample :
    parseDNSResponse (encResp ⟨[0, 0, 0, 0, 0, 0], 1, [0, 0, 0, 0], [], [0, 65, 0, 1],
      [⟨DName.plain [], 65, [0, 1, 0, 0, 0, 0], encHTTPS [0, 1] [] [⟨2, []⟩, ⟨5, [1]⟩]⟩]⟩) =
      DNSResult.notFound ∧
    DNSResult.notFound ≠ DNSResult.found (b64encode [1]) := by
  constructor
  · have hrd : parseHTTPSRecord (encHTTPS [0, 1] [] [⟨2, []⟩, ⟨5, [1]⟩]) = some "" := by
      rw [parseHTTPSRecord_encode [0, 1] [] _ rfl (by intro l hl; cases hl)]
      have hsh : encHTTPS [0, 1] [] [⟨2, []⟩, ⟨5, [1]⟩] =
          [0, 1, 0] ++ (encParam ⟨2, []⟩ ++ encParam ⟨5, [1]⟩) := rfl
      have hoff : 3 + (labelsBytes []).length = ([0, 1, 0] : List Nat).length := rfl
      rw [hoff, hsh]
      exact svcLoop_param_zero [0, 1, 0] (encParam ⟨5, [1]⟩) ⟨2, []⟩ (by decide) rfl
    refine parseDNSResponse_encode_notFound _ rfl rfl rfl (by intro l hl; cases hl)
      rfl (by decide) (by decide) ?_
    intro r hr
    simp only [List.mem_singleton] at hr
    subst hr
    refine ⟨⟨?_, ?_, rfl, ?_⟩, Or.inr hrd⟩
    · show WFlabels []
      intro l hl
      cases hl
    · show (65 : Nat) < 65536
      decide
    · show (encHTTPS [0, 1] [] [⟨2, []⟩, ⟨5, [1]⟩]).length < 65536
      decide
  · decide

/-- C1, amended: for any well-formed DNS response containing an HTTPS
    (type 65) answer whose data includes a SvcParam with key 5, IN WHICH
    EVERY SVCPARAM UP TO THE KEY-5 ENTRY HAS A NONZERO-LENGTH VALUE, the
    parser returns exactly that value re-encoded in standard base64, with no
    error, regardless of whether preceding answer records use compressed
    (pointer-form) or uncompressed names.  (The nonzero-length proviso is
    forced by `c1_counterexample`: the Go SvcParam loop stops at a
    zero-length parameter.) -/
theorem c1_ech_extraction
    (header6 tail4 qtail prio meta : List Nat)
    (qlabels target : List (List Nat)) (nm : DName)
    (preRRs postRRs : List RR) (preP postP : List SvcParam) (v : List Nat)
    (hh6 : header6.length = 6) (ht4 : tail4.length = 4) (hqt : qtail.length = 4)
    (hql : WFlabels qlabels)
    (hpreRR : ∀ r ∈ preRRs, WFrr r ∧ (r.rtype ≠ 65 ∨ parseHTTPSRecord r.rdata = some ""))
    (hnm : WFname nm) (hmeta : meta.length = 6)
    (hprio : prio.length = 2) (htgt : WFlabels target)
    (hpreP : ∀ p ∈ preP, p.key ≠ 5 ∧ p.key < 65536 ∧ 1 ≤ p.value.length ∧
      p.value.length < 65536)
    (hv1 : 1 ≤ v.length) (hv2 : v.length < 65536)
    (hrdlen : (encHTTPS prio target (preP ++ ⟨5, v⟩ :: postP)).length < 65536)
    (han : preRRs.length + (postRRs.length + 1) < 65536) :
    parseDNSResponse (encResp ⟨header6, preRRs.length + (postRRs.length + 1), tail4,
      qlabels, qtail,
      preRRs ++ (⟨nm, 65, meta, encHTTPS prio target (preP ++ ⟨5, v⟩ :: postP)⟩ : RR)
        :: postRRs⟩) = .found (b64encode v) :=
  parseDNSResponse_found header6 tail4 qtail prio meta qlabels target nm preRRs
    postRRs preP postP v hh6 ht4 hqt hql hpreRR hnm hmeta hprio htgt hpreP hv1 hv2
    hrdlen han

/-- C1, witness: a concrete response — ANCOUNT 2, question "www", a first
    answer with a pointer-form name and type A, then an HTTPS answer with a
    pointer-form name whose SvcParams are (1, "a") and (5, [1, 2]) — parses
    to base64([1, 2]) = "AQI=". -/
theorem c1_witness :
    parseDNSResponse (encResp ⟨[0, 0, 0, 0, 0, 0], 2, [0, 0, 0, 0],
      [[119, 119, 119]], [0, 65, 0, 1],
      [⟨DName.ptr 12, 1, [0, 1, 0, 0, 0, 0], [9, 9, 9, 9]⟩,
       ⟨DName.ptr 12, 65, [0, 1, 0, 0, 0, 0],
        encHTTPS [0, 1] [] [⟨1, [97]⟩, ⟨5, [1, 2]⟩]⟩]⟩) =
      DNSResult.found (b64encode [1, 2]) := by
  refine c1_ech_extraction [0, 0, 0, 0, 0, 0] [0, 0, 0, 0] [0, 65, 0, 1] [0, 1]
    [0, 1, 0, 0, 0, 0] [[119, 119, 119]] [] (DName.ptr 12)
    [⟨DName.ptr 12, 1, [0, 1, 0, 0, 0, 0], [9, 9, 9, 9]⟩] []
    [⟨1, [97]⟩] [] [1, 2] rfl rfl rfl
    (by intro l hl; simp only [List.mem_singleton] at hl; subst hl; exact ⟨by decide, by decide⟩)
    ?_ ?_ rfl rfl (by intro l hl; cases hl)
    ?_ (by decide) (by decide) (by decide) (by decide)
  · intro r hr
    simp only [List.mem_singleton] at hr
    subst hr
    exact ⟨⟨show (12 : Nat) < 16384 by decide, show (1 : Nat) < 65536 by decide, rfl,
      show (4 : Nat) < 65536 by decide⟩, Or.inl (by decide)⟩
  · show (12 : Nat) < 16384
    decide
  · intro p hp
    simp only [List.mem_singleton] at hp
    subst hp
    exact ⟨by decide, by decide, by decide, by decide⟩

/-- C2: for every input byte slice the parser never reads past the end of
    the buffer — every dereference the Go code performs is covered by a
    preceding bounds check, so neither `parseDNSResponse` nor
    `parseHTTPSRecord` ever reaches the out-of-bounds (panic) outcome, and
    both are total functions. -/
theorem c2_parser_never_out_of_bounds :
    (∀ resp : List Nat, parseDNSResponse resp ≠ DNSResult.oob) ∧
    (∀ data : List Nat, parseHTTPSRecord data ≠ none) :=
  ⟨parseDNSResponse_ne_oob, parseHTTPSRecord_ne_none⟩

/-- C3: well-formed inputs from which no ECH value is extractable give a
    "not found" outcome, never a crash: ANCOUNT = 0 yields the dedicated
    no-answer-records error (Go: `("", errors.New("无应答记录"))`); a
    well-formed response whose answers are all non-HTTPS or HTTPS without an
    extractable ECH value yields the empty result `("", nil)`; and HTTPS
    record data whose SvcParams contain no key 5 yields the empty string.
    (The caller `Prepare` maps the empty string to the "未找到ECH参数"
    error, i.e. ECH not found.) -/
theorem c3_empty_inputs_not_found :
    (∀ resp : List Nat, 12 ≤ resp.length → readU16 resp 6 = some 0 →
      parseDNSResponse resp = DNSResult.noAnswers) ∧
    (∀ m : DNSResp, m.header6.length = 6 → m.tail4.length = 4 → m.qtail.length = 4 →
      WFlabels m.qlabels → m.ancount = m.answers.length → m.ancount ≠ 0 →
      m.ancount < 65536 →
      (∀ r ∈ m.answers, WFrr r ∧ (r.rtype ≠ 65 ∨ parseHTTPSRecord r.rdata = some "")) →
      parseDNSResponse (encResp m) = DNSResult.notFound) ∧
    (∀ (prio : List Nat) (target : List (List Nat)) (ps : List SvcParam),
      prio.length = 2 → WFlabels target →
      (∀ p ∈ ps, p.key ≠ 5 ∧ p.key < 65536 ∧ p.value.length < 65536) →
      parseHTTPSRecord (encHTTPS prio target ps) = some "") := by
  refine ⟨?_, ?_, ?_⟩
  · intro resp h12 h6
    unfold parseDNSResponse
    rw [if_neg (by omega)]
    simp only [h6]
    rw [if_pos trivial]
  · intro m hh6 ht4 hqt hql hanc han0 hanlt hall
    exact parseDNSResponse_encode_notFound m hh6 ht4 hqt hql hanc han0 hanlt hall
  · intro prio target ps hp ht h
    exact parseHTTPSRecord_encode_none prio target ps hp ht h

/-- C3, witness: an all-zero 12-byte header (ANCOUNT 0) gives the no-answer
    error; a response whose only answer is a type-A record gives the empty
    not-found result; HTTPS data with a single key-1 SvcParam gives the
    empty string. -/
theorem c3_witness :
    parseDNSResponse (List.replicate 12 0) = DNSResult.noAnswers ∧
    parseDNSResponse (encResp ⟨[0, 0, 0, 0, 0, 0], 1, [0, 0, 0, 0], [], [0, 65, 0, 1],
      [⟨DName.plain [], 1, [0, 1, 0, 0, 0, 0], [7, 7]⟩]⟩) = DNSResult.notFound ∧
    parseHTTPSRecord (encHTTPS [0, 1] [] [⟨1, [97]⟩]) = some "" := by
  refine ⟨c3_empty_inputs_not_found.1 (List.replicate 12 0) (by decide) (by decide),
    c3_empty_inputs_not_found.2.1 _ rfl rfl rfl (by intro l hl; cases hl) rfl
      (by decide) (by decide) ?_,
    c3_empty_inputs_not_found.2.2 [0, 1] [] [⟨1, [97]⟩] rfl
      (by intro l hl; cases hl) ?_⟩
  · intro r hr
    simp only [List.mem_singleton] at hr
    subst hr
    refine ⟨⟨?_, by decide, rfl, by decide⟩, Or.inl (by decide)⟩
    show WFlabels []
    intro l hl
    cases hl
  · intro p hp
    simp only [List.mem_singleton] at hp
    subst hp
    exact ⟨by decide, by decide, by decide⟩

/-! ## Address parsing (C9) -/

theorem splitBy_sepFree (p : Char → Bool) (s : List Char)
    (h : ∀ c ∈ s, p c = false) : splitBy p s = [s] := by
  induction s with
  | nil => rfl
  | cons c cs ih =>
    unfold splitBy
    rw [if_neg (by rw [h c (by simp)]; simp), ih (fun d hd => h d (by simp [hd]))]

theorem splitBy_append_sep (p : Char → Bool) (h t : List Char) (sep : Char)
    (hh : ∀ c ∈ h, p c = false) (hsep : p sep = true) :
    splitBy p (h ++ sep :: t) = h :: splitBy p t := by
  induction h with
  | nil =>
    show splitBy p (sep :: t) = [] :: splitBy p t
    rw [splitBy, if_pos hsep]
  | cons c h' ih =>
    show splitBy p (c :: (h' ++ sep :: t)) = (c :: h') :: splitBy p t
    rw [splitBy, if_neg (by rw [hh c (by simp)]; simp),
      ih (fun d hd => hh d (by simp [hd]))]

/-- C9: `parseAddress` maps "example.com" to (example.com, 443),
    "example.com:8443" to (example.com, 8443), "[::1]:9000" to ([::1], 9000),
    "[::1]" to ([::1], 443); "host,9000" and "host;9000" behave exactly like
    "host:9000"; and in the non-bracketed form an absent port, or a port that
    JS `parseInt` cannot parse, defaults to 443. -/
theorem c9_parse_address :
    parseAddress "example.com".toList = ⟨"example.com".toList, 443⟩ ∧
    parseAddress "example.com:8443".toList = ⟨"example.com".toList, 8443⟩ ∧
    parseAddress "[::1]:9000".toList = ⟨"[::1]".toList, 9000⟩ ∧
    parseAddress "[::1]".toList = ⟨"[::1]".toList, 443⟩ ∧
    parseAddress "host,9000".toList = parseAddress "host:9000".toList ∧
    parseAddress "host;9000".toList = parseAddress "host:9000".toList ∧
    (∀ hst prt : List Char, (hst ++ ':' :: prt).headD ' ' ≠ '[' →
      (∀ c ∈ hst, isSepChar c = false) → (∀ c ∈ prt, isSepChar c = false) →
      jsParseInt prt = none →
      parseAddress (hst ++ ':' :: prt) = ⟨hst, 443⟩) ∧
    (∀ hst : List Char, hst.headD ' ' ≠ '[' → (∀ c ∈ hst, isSepChar c = false) →
      parseAddress hst = ⟨hst, 443⟩) := by
  refine ⟨by decide, by decide, by decide, by decide, by decide, by decide, ?_, ?_⟩
  · intro hst prt hhead hh hp hnan
    unfold parseAddress
    rw [if_neg (fun hc => hhead hc.1)]
    rw [splitBy_append_sep isSepChar hst prt ':' hh rfl]
    rw [splitBy_sepFree isSepChar prt hp]
    simp only [hnan, List.headD_cons, Option.getD_none]
  · intro hst hhead hh
    unfold parseAddress
    rw [if_neg (fun hc => hhead hc.1)]
    rw [splitBy_sepFree isSepChar hst hh]
    cases hst <;> rfl

/-- C9, witness: "host:abc" has an unparsable port and yields (host, 443);
    a bare "plainhost" yields (plainhost, 443). -/
theorem c9_witness :
    parseAddress "host:abc".toList = ⟨"host".toList, 443⟩ ∧
    parseAddress "plainhost".toList = ⟨"plainhost".toList, 443⟩ := by
  constructor
  · have h := c9_parse_address.2.2.2.2.2.2.1 "host".toList "abc".toList
      (by decide) (by decide) (by decide) (by decide)
    exact h
  · exact c9_parse_address.2.2.2.2.2.2.2 "plainhost".toList (by decide) (by decide)

/-! ## ECH config store (C10) -/

theorem b64decodeCore_ne_some_nil : ∀ cl : List Char, cl ≠ [] →
    b64decodeCore cl ≠ some []
  | [], h => absurd rfl h
  | [_], _ => by simp [b64decodeCore]
  | [_, _], _ => by simp [b64decodeCore]
  | [_, _, _], _ => by simp [b64decodeCore]
  | a :: b :: c :: d :: rest, _ => by
    unfold b64decodeCore
    cases b64Val a with
    | none => simp
    | some va =>
      cases b64Val b with
      | none => simp
      | some vb =>
        by_cases hc : c = '='
        · simp only [if_pos hc]
          by_cases hd : d = '=' ∧ rest = []
          · simp [hd]
          · simp [hd]
        · simp only [if_neg hc]
          cases b64Val c with
          | none => simp
          | some vc =>
            by_cases hd : d = '='
            · simp only [if_pos hd]
              by_cases hrest : rest = []
              · simp [hrest]
              · simp [hrest]
            · simp only [if_neg hd]
              cases b64Val d with
              | none => simp
              | some vd =>
                intro hmap
                simp only [Option.map_eq_some'] at hmap
                obtain ⟨tl, _, heq⟩ := hmap
                cases heq

theorem b64decode_ne_some_nil (s : String) (h : s ≠ "") : b64decode s ≠ some [] := by
  apply b64decodeCore_ne_some_nil
  intro hnil
  apply h
  cases s with
  | mk data =>
    simp only [String.toList] at hnil
    simp [hnil]

theorem prepare_fail_unchanged (q : Except Unit String) (m : ECHManager) (e : PrepErr)
    (h : (Prepare q m).1 = .error e) : (Prepare q m).2 = m := by
  cases q with
  | error u => rfl
  | ok s =>
    by_cases hs : s = ""
    · simp [Prepare, hs]
    · simp only [Prepare, if_neg hs]
      cases hdec : b64decode s with
      | none => rfl
      | some raw =>
        simp only [Prepare, if_neg hs, hdec] at h
        cases h

theorem runPrepares_get (qs : List (Except Unit String)) (m : ECHManager) :
    GetECHList (runPrepares qs m) =
      match lastSuccess qs with
      | some v => .ok v
      | none => GetECHList m := by
  induction qs generalizing m with
  | nil => rfl
  | cons q qs ih =>
    rw [show runPrepares (q :: qs) m = runPrepares qs (Prepare q m).2 from rfl, ih]
    cases hls : lastSuccess qs with
    | some v => simp [lastSuccess, hls]
    | none =>
      simp only [lastSuccess, hls]
      cases q with
      | error u => rfl
      | ok s =>
        by_cases hs : s = ""
        · simp [Prepare, prepValue, hs]
        · simp only [Prepare, prepValue, if_neg hs]
          cases hdec : b64decode s with
          | none => rfl
          | some raw =>
            have hraw : raw ≠ [] := by
              intro hnil
              exact b64decode_ne_some_nil s hs (hnil ▸ hdec)
            simp only [GetECHList]
            rw [if_neg (by simpa using hraw)]

/-- C10: a failing `Prepare` (DNS query failure, empty ECH result or base64
    decode failure) leaves the stored ECH blob unchanged; after any sequence
    of `Prepare` calls starting from the fresh store, `GetECHList` returns
    exactly the blob decoded by the last successful call, or the
    not-loaded error "ECH配置未加载" if none ever succeeded; and `Refresh`
    is exactly `Prepare`. -/
theorem c10_store_keeps_last_good_value :
    (∀ (q : Except Unit String) (m : ECHManager) (e : PrepErr),
      (Prepare q m).1 = .error e → (Prepare q m).2 = m) ∧
    (∀ qs : List (Except Unit String),
      GetECHList (runPrepares qs ⟨[]⟩) =
        match lastSuccess qs with
        | some v => .ok v
        | none => .error "ECH配置未加载") ∧
    (∀ (q : Except Unit String) (m : ECHManager), Refresh q m = Prepare q m) := by
  refine ⟨prepare_fail_unchanged, ?_, fun _ _ => rfl⟩
  intro qs
  rw [runPrepares_get qs ⟨[]⟩]
  rfl

/-- C10, witness: a failed refresh after a successful `Prepare` keeps the
    stored blob; the decode of "AQID" is [1, 2, 3] and survives a DNS
    failure and a corrupt payload "!!". -/
theorem c10_witness :
    (Prepare (.error ()) ⟨[9]⟩).2 = (⟨[9]⟩ : ECHManager) ∧
    GetECHList (runPrepares [.ok "AQID", .error (), .ok "!!"] ⟨[]⟩) =
      .ok [1, 2, 3] := by
  constructor
  · exact c10_store_keeps_last_good_value.1 (.error ()) ⟨[9]⟩ .dnsFail rfl
  · rw [c10_store_keeps_last_good_value.2.1 [.ok "AQID", .error (), .ok "!!"]]
    rfl

/-! ## Dialer retry loop (C7, C8) -/

theorem dialLoop_run (env : Nat → AttemptRes) (maxRetries attempt : Nat)
    (lastErr : Option (List Char)) (h : attempt ≤ maxRetries) :
    dialLoop env maxRetries attempt lastErr =
      match env attempt with
      | .buildErr m =>
        if attempt < maxRetries ∧ echBuildRetryable m = true then
          ((dialLoop env maxRetries (attempt + 1) (some m)).1,
            .refresh :: .sleepMs 500 :: (dialLoop env maxRetries (attempt + 1) (some m)).2)
        else (.buildFatal m, [])
      | .buildOk (.error m) =>
        if attempt < maxRetries ∧ echDialRetryable m = true then
          ((dialLoop env maxRetries (attempt + 1) (some m)).1,
            .refresh :: .sleepMs 1000 :: (dialLoop env maxRetries (attempt + 1) (some m)).2)
        else (.dialFatal m, [])
      | .buildOk (.ok c) => (.conn c, []) := by
  rw [dialLoop, dif_pos h]

theorem dialLoop_stop (env : Nat → AttemptRes) (maxRetries attempt : Nat)
    (lastErr : Option (List Char)) (h : ¬ attempt ≤ maxRetries) :
    dialLoop env maxRetries attempt lastErr = (.exhausted lastErr, []) := by
  rw [dialLoop, dif_neg h]

theorem dialLoop_ne_exhausted (env : Nat → AttemptRes) (maxRetries : Nat) :
    ∀ (attempt : Nat) (lastErr : Option (List Char)), attempt ≤ maxRetries →
      ∀ le, (dialLoop env maxRetries attempt lastErr).1 ≠ .exhausted le := by
  intro attempt lastErr
  induction attempt, lastErr using dialLoop.induct env maxRetries with
  | case1 attempt lastErr hle m henv hcond ih =>
    intro _ le
    rw [dialLoop_run env maxRetries attempt lastErr hle]
    simp only [henv, if_pos hcond]
    exact ih (by omega) le
  | case2 attempt lastErr hle m henv hcond =>
    intro _ le
    rw [dialLoop_run env maxRetries attempt lastErr hle]
    simp only [henv, if_neg hcond]
    simp
  | case3 attempt lastErr hle m henv hcond ih =>
    intro _ le
    rw [dialLoop_run env maxRetries attempt lastErr hle]
    simp only [henv, if_pos hcond]
    exact ih (by omega) le
  | case4 attempt lastErr hle m henv hcond =>
    intro _ le
    rw [dialLoop_run env maxRetries attempt lastErr hle]
    simp only [henv, if_neg hcond]
    simp
  | case5 attempt lastErr hle c henv =>
    intro _ le
    rw [dialLoop_run env maxRetries attempt lastErr hle]
    simp only [henv]
    simp
  | case6 attempt lastErr hnle =>
    intro hle
    exact absurd hle hnle

theorem dialLoop_all_fail (env : Nat → AttemptRes) (maxRetries : Nat) :
    ∀ (attempt : Nat) (lastErr : Option (List Char)), attempt ≤ maxRetries →
      (∀ i, attempt ≤ i → i < maxRetries → attemptRetryable (env i) = true) →
      (dialLoop env maxRetries attempt lastErr).1 =
        match env maxRetries with
        | .buildErr m => .buildFatal m
        | .buildOk (.error m) => .dialFatal m
        | .buildOk (.ok c) => .conn c := by
  intro attempt lastErr
  induction attempt, lastErr using dialLoop.induct env maxRetries with
  | case1 attempt lastErr hle m henv hcond ih =>
    intro _ hall
    rw [dialLoop_run env maxRetries attempt lastErr hle]
    simp only [henv, if_pos hcond]
    exact ih (by omega) (fun i h1 h2 => hall i (by omega) h2)
  | case2 attempt lastErr hle m henv hcond =>
    intro _ hall
    have hmax : attempt = maxRetries := by
      by_contra hne
      have hlt : attempt < maxRetries := by omega
      have hr := hall attempt (le_refl attempt) hlt
      rw [henv] at hr
      simp only [attemptRetryable] at hr
      exact hcond ⟨hlt, hr⟩
    subst hmax
    rw [dialLoop_run env attempt attempt lastErr hle]
    simp only [henv, if_neg hcond]
  | case3 attempt lastErr hle m henv hcond ih =>
    intro _ hall
    rw [dialLoop_run env maxRetries attempt lastErr hle]
    simp only [henv, if_pos hcond]
    exact ih (by omega) (fun i h1 h2 => hall i (by omega) h2)
  | case4 attempt lastErr hle m henv hcond =>
    intro _ hall
    have hmax : attempt = maxRetries := by
      by_contra hne
      have hlt : attempt < maxRetries := by omega
      have hr := hall attempt (le_refl attempt) hlt
      rw [henv] at hr
      simp only [attemptRetryable] at hr
      exact hcond ⟨hlt, hr⟩
    subst hmax
    rw [dialLoop_run env attempt attempt lastErr hle]
    simp only [henv, if_neg hcond]
  | case5 attempt lastErr hle c henv =>
    intro _ hall
    have hmax : attempt = maxRetries := by
      by_contra hne
      have hlt : attempt < maxRetries := by omega
      have hr := hall attempt (le_refl attempt) hlt
      rw [henv] at hr
      simp only [attemptRetryable] at hr
      cases hr
    subst hmax
    rw [dialLoop_run env attempt attempt lastErr hle]
    simp only [henv]
  | case6 attempt lastErr hnle =>
    intro hle
    exact absurd hle hnle

/-- Three dial attempts where the first two builds fail with recognized
    ECH-related messages: two refresh-and-sleep rounds happen, then the
    third attempt's outcome decides the result — including a dial failure
    on the third attempt, which surfaces as a fatal dial error. -/
theorem dialWithECH_three_steps (env : Nat → AttemptRes) (m1 m2 : List Char)
    (r3 : AttemptRes)
    (h1 : env 1 = .buildErr m1) (hr1 : echBuildRetryable m1 = true)
    (h2 : env 2 = .buildErr m2) (hr2 : echBuildRetryable m2 = true)
    (h3 : env 3 = r3) :
    DialWithECH env 3 =
      match r3 with
      | .buildErr m =>
        (DialOutcome.buildFatal m,
         [DialAct.refresh, DialAct.sleepMs 500, DialAct.refresh, DialAct.sleepMs 500])
      | .buildOk (.error m) =>
        (DialOutcome.dialFatal m,
         [DialAct.refresh, DialAct.sleepMs 500, DialAct.refresh, DialAct.sleepMs 500])
      | .buildOk (.ok c) =>
        (DialOutcome.conn c,
         [DialAct.refresh, DialAct.sleepMs 500, DialAct.refresh, DialAct.sleepMs 500]) := by
  rw [DialWithECH, dialLoop_run env 3 1 none (by omega)]
  simp only [h1]
  rw [if_pos ⟨by omega, hr1⟩]
  rw [dialLoop_run env 3 2 (some m1) (by omega)]
  simp only [h2]
  rw [if_pos ⟨by omega, hr2⟩]
  rw [dialLoop_run env 3 3 (some m2) (by omega)]
  simp only [h3]
  cases r3 with
  | buildErr m => simp
  | buildOk d =>
    cases d with
    | error m => simp
    | ok c => simp

/-- C7, counterexample.  The claim concludes "DialWithECH succeeds" from the
    behaviour of BuildTLSConfig alone.  With builds failing twice with
    ECH-related messages and succeeding on the third attempt, but the
    WebSocket dial of the third attempt failing (message "boom", not
    ECH-related), DialWithECH returns the fatal dial error, not a
    connection — even though Refresh did run exactly twice. -/
theorem c7_counterexample :
    (DialWithECH (fun n => if n = 1 then AttemptRes.buildErr "ECH配置a".toList
      else if n = 2 then AttemptRes.buildErr "ECH配置b".toList
      else AttemptRes.buildOk (.error "boom".toList)) 3).1 =
      DialOutcome.dialFatal "boom".toList ∧
    ∀ c, DialOutcome.dialFatal "boom".toList ≠ DialOutcome.conn c := by
  have h := dialWithECH_three_steps
    (fun n => if n = 1 then AttemptRes.buildErr "ECH配置a".toList
      else if n = 2 then AttemptRes.buildErr "ECH配置b".toList
      else AttemptRes.buildOk (.error "boom".toList))
    "ECH配置a".toList "ECH配置b".toList (AttemptRes.buildOk (.error "boom".toList))
    rfl (by decide) rfl (by decide) rfl
  constructor
  · rw [h]
  · intro c hc
    cases hc

/-- C7, amended: if BuildTLSConfig fails on the first two attempts with a
    message recognized as ECH-related, succeeds on the third, AND the
    third attempt's WebSocket dial succeeds, with maxRetries 3, then
    DialWithECH succeeds and Refresh is invoked exactly twice, once after
    each recognized failure, each followed by a delay before the next
    attempt (the trace is exactly refresh, 500 ms sleep, refresh, 500 ms
    sleep). -/
theorem c7_refresh_twice (env : Nat → AttemptRes) (m1 m2 : List Char) (c : Nat)
    (h1 : env 1 = .buildErr m1) (hr1 : echBuildRetryable m1 = true)
    (h2 : env 2 = .buildErr m2) (hr2 : echBuildRetryable m2 = true)
    (h3 : env 3 = .buildOk (.ok c)) :
    DialWithECH env 3 =
      (DialOutcome.conn c,
       [DialAct.refresh, DialAct.sleepMs 500, DialAct.refresh, DialAct.sleepMs 500]) := by
  rw [dialWithECH_three_steps env m1 m2 _ h1 hr1 h2 hr2 h3]

/-- C7, witness: with the actual Go error strings "ECH配置未加载" and
    "未找到ECH参数" on attempts 1 and 2 and a successful third attempt, the
    dialer yields the connection after exactly two refreshes. -/
theorem c7_witness :
    DialWithECH (fun n => if n = 1 then AttemptRes.buildErr "ECH配置未加载".toList
      else if n = 2 then AttemptRes.buildErr "未找到ECH参数".toList
      else AttemptRes.buildOk (.ok 7)) 3 =
      (DialOutcome.conn 7,
       [DialAct.refresh, DialAct.sleepMs 500, DialAct.refresh, DialAct.sleepMs 500]) :=
  c7_refresh_twice _ _ _ 7 rfl (by decide) rfl (by decide) rfl

/-- C8, counterexample.  With maxRetries = 1 and the single attempt failing
    (ECH-related build error), all attempts are used up without success, yet
    DialWithECH surfaces the error wrapped as a fatal TLS-build failure
    ("构建TLS配置失败"), not as the reached-max-retries (DialExhausted)
    error: the retry guard `attempt < maxRetries` makes the final attempt
    return before the after-loop DialExhausted line (websocket.go:127). -/
theorem c8_counterexample :
    (DialWithECH (fun _ => AttemptRes.buildErr "ECH配置".toList) 1).1 =
      DialOutcome.buildFatal "ECH配置".toList ∧
    ∀ le, DialOutcome.buildFatal "ECH配置".toList ≠ DialOutcome.exhausted le := by
  constructor
  · rw [DialWithECH, dialLoop_run _ 1 1 none (le_refl 1)]
    simp
  · intro le hc
    cases hc

/-- C8, amended: when maxRetries ≥ 1, DialWithECH never returns the
    reached-max-retries (DialExhausted) error; if every attempt that runs
    fails with a retryable ECH-related failure, the final attempt's error is
    surfaced wrapped as a fatal build or dial failure.  The DialExhausted
    wrapper is reachable only for maxRetries ≤ 0, carrying no underlying
    error. -/
theorem c8_last_error_not_exhausted :
    (∀ (env : Nat → AttemptRes) (maxRetries : Nat), 1 ≤ maxRetries →
      ∀ le, (DialWithECH env maxRetries).1 ≠ DialOutcome.exhausted le) ∧
    (∀ (env : Nat → AttemptRes) (maxRetries : Nat), 1 ≤ maxRetries →
      (∀ i, 1 ≤ i → i < maxRetries → attemptRetryable (env i) = true) →
      (DialWithECH env maxRetries).1 =
        match env maxRetries with
        | .buildErr m => .buildFatal m
        | .buildOk (.error m) => .dialFatal m
        | .buildOk (.ok c) => .conn c) ∧
    (∀ env : Nat → AttemptRes, DialWithECH env 0 = (.exhausted none, [])) := by
  refine ⟨?_, ?_, ?_⟩
  · intro env maxR h1 le
    exact dialLoop_ne_exhausted env maxR 1 none h1 le
  · intro env maxR h1 hall
    exact dialLoop_all_fail env maxR 1 none h1 hall
  · intro env
    rw [DialWithECH, dialLoop_stop env 0 1 none (by omega)]

/-- C8, witness: the maxRetries = 1 all-fail run is not DialExhausted and
    equals the fatal build-failure wrap of the only attempt's error. -/
theorem c8_witness :
    (DialWithECH (fun _ => AttemptRes.buildErr "ECH配置".toList) 1).1 ≠
      DialOutcome.exhausted none ∧
    (DialWithECH (fun _ => AttemptRes.buildErr "ECH配置".toList) 1).1 =
      DialOutcome.buildFatal "ECH配置".toList := by
  refine ⟨c8_last_error_not_exhausted.1 _ 1 (by omega) none, ?_⟩
  exact c8_last_error_not_exhausted.2.1 (fun _ => AttemptRes.buildErr "ECH配置".toList)
    1 (by omega) (fun i h1 h2 => absurd h2 (by omega))

/-! ## Second Connect while busy (C4) -/

theorem startsWithL_append (p s : List Char) : startsWithL p (p ++ s) = true := by
  simp [startsWithL]

/-- C4, counterexample.  The claim says the first connection's state is
    unaffected by a rejected second Connect.  On a connected session
    (outbound socket, writer and reader present, WebSocket OPEN), a second
    `CONNECT:` message makes the message listener catch the
    AlreadyConnecting throw, send `ERROR:` and run `cleanup()`
    (_worker.js:216-219): the outbound handles are released and nulled, the
    socket and the WebSocket are closed — nothing "remains exactly as it
    was". -/
theorem c4_counterexample :
    (handleMessage (fun _ => Except.error []) ⟨false, false, some 1, some 1, some 1, 0, 1⟩
        (.text "CONNECT:h:80".toList)) =
      (⟨true, false, none, none, none, 0, 3⟩,
       [Act.sendError alreadyMsg, Act.releaseWriter, Act.releaseReader,
        Act.closeSocket, Act.closeWS]) ∧
    (⟨false, false, some 1, some 1, some 1, 0, 1⟩ : Sess).remote ≠
      (none : Option Nat) := by
  constructor
  · decide
  · decide

/-- C4, amended: a Connect arriving while the session is connecting or
    connected is rejected with the AlreadyConnecting error
    ("已有连接或正在连接中") and `connectToRemote` itself leaves the session
    state completely untouched; however the message listener's catch then
    reports `ERROR:<AlreadyConnecting>` to the peer and performs teardown,
    so the session — including the first connection's socket, handles and
    WebSocket — is closed rather than left as it was. -/
theorem connect8_no_pipe : ∀ c ∈ "CONNECT:".toList, decide (c = '|') = false := by
  decide

/-- The guard of `connectToRemote` (_worker.js:114-116) throws before any
    mutation when a connection exists or is in progress. -/
theorem connectToRemote_busy (env : Nat → Except (List Char) Nat) (st : Sess)
    (t f p : List Char) (hbusy : st.isConnecting = true ∨ st.remote.isSome = true) :
    connectToRemote env st t f p = (.error alreadyMsg, st, []) := by
  rw [connectToRemote, if_pos hbusy]

theorem c4_already_connecting (env : Nat → Except (List Char) Nat) (st : Sess)
    (targetAddr firstFrame proxyIP : List Char)
    (hbusy : st.isConnecting = true ∨ st.remote.isSome = true) :
    connectToRemote env st targetAddr firstFrame proxyIP = (.error alreadyMsg, st, []) ∧
    (∀ rest : List Char, st.isClosed = false → rest ≠ [] →
      (∀ c ∈ rest, c ≠ '|') →
      handleMessage env st (.text ("CONNECT:".toList ++ rest)) =
        ((cleanup st).1, Act.sendError alreadyMsg :: (cleanup st).2)) := by
  refine ⟨connectToRemote_busy env st targetAddr firstFrame proxyIP hbusy, ?_⟩
  intro rest hopen hne hpipe
  rw [handleMessage]
  simp only [hopen]
  rw [if_neg (by simp)]
  rw [startsWithL_append]
  simp only [if_pos rfl]
  have hsplit : splitBy (fun c => decide (c = '|')) ("CONNECT:".toList ++ rest) =
      ["CONNECT:".toList ++ rest] := by
    apply splitBy_sepFree
    intro c hc
    rcases List.mem_append.mp hc with h | h
    · exact connect8_no_pipe c h
    · exact decide_eq_false (hpipe c h)
  rw [hsplit]
  simp only [List.headD_cons, List.drop_succ_cons, List.drop_nil, List.headD_nil]
  rw [show ("CONNECT:".toList ++ rest).drop 8 = rest from by
    rw [show (8 : Nat) = "CONNECT:".toList.length from rfl, List.drop_left]]
  rw [if_neg (show ¬(rest.isEmpty = true) from by
    cases rest with
    | nil => exact absurd rfl hne
    | cons a t => simp)]
  rw [connectToRemote_busy env st rest [] [] hbusy]
  simp

/-- C4, witness: a connected session (socket 1, WebSocket OPEN) rejects
    `CONNECT:h:80` with AlreadyConnecting, connectToRemote leaves the state
    untouched, and the handler then reports the error and tears down. -/
theorem c4_witness :
    connectToRemote (fun _ => Except.error []) ⟨false, false, some 1, some 1, some 1, 0, 1⟩
      "h:80".toList [] [] =
      (.error alreadyMsg, ⟨false, false, some 1, some 1, some 1, 0, 1⟩, []) ∧
    handleMessage (fun _ => Except.error []) ⟨false, false, some 1, some 1, some 1, 0, 1⟩
      (.text ("CONNECT:".toList ++ "h:80".toList)) =
      ((cleanup ⟨false, false, some 1, some 1, some 1, 0, 1⟩).1,
       Act.sendError alreadyMsg ::
         (cleanup ⟨false, false, some 1, some 1, some 1, 0, 1⟩).2) := by
  have h := c4_already_connecting (fun _ => Except.error [])
    ⟨false, false, some 1, some 1, some 1, 0, 1⟩ "h:80".toList [] [] (Or.inr rfl)
  exact ⟨h.1, h.2 "h:80".toList rfl (by decide) (by decide)⟩

/-! ## Teardown idempotence (C5) -/

theorem cleanup_closed (st : Sess) (h : st.isClosed = true) : cleanup st = (st, []) := by
  rw [cleanup, if_pos h]

theorem cleanup_open (st : Sess) (h : st.isClosed = false)
    (hw : st.writer.isSome = true) (hr : st.reader.isSome = true)
    (hs : st.remote.isSome = true) (hws : st.wsReadyState = 1) :
    cleanup st =
      ({ st with
          isClosed := true
          isConnecting := false
          writer := none
          reader := none
          remote := none
          wsReadyState := 3 },
       [Act.releaseWriter, Act.releaseReader, Act.closeSocket, Act.closeWS]) := by
  rw [cleanup, if_neg (by simp [h])]
  simp [hw, hr, hs, safeCloseWebSocket, hws]

theorem runTriggers_cons (t : Trigger) (ts : List Trigger) (st : Sess) :
    runTriggers (t :: ts) st =
      ((runTriggers ts (fireTrigger st t).1).1,
       (fireTrigger st t).2 ++ (runTriggers ts (fireTrigger st t).1).2) := rfl

theorem fireTrigger_closed (st : Sess) (h : st.isClosed = true) (t : Trigger) :
    (fireTrigger st t).1 = st ∧
    ∀ a : Act, isCloseOp a = true → (fireTrigger st t).2.count a = 0 := by
  cases t with
  | peerClose => simp [fireTrigger, h]
  | wsCloseEvt => simp [fireTrigger, cleanup_closed st h]
  | wsErrEvt => simp [fireTrigger, cleanup_closed st h]
  | msgError m =>
    simp only [fireTrigger, cleanup_closed st h]
    refine ⟨by simp, ?_⟩
    intro a ha
    cases a <;> simp_all [isCloseOp]
  | pumpExhausted => simp [fireTrigger, h]

theorem runTriggers_closed : ∀ (ts : List Trigger) (st : Sess), st.isClosed = true →
    (runTriggers ts st).1 = st ∧
    ∀ a : Act, isCloseOp a = true → (runTriggers ts st).2.count a = 0 := by
  intro ts
  induction ts with
  | nil => intro st h; simp [runTriggers]
  | cons t ts ih =>
    intro st h
    obtain ⟨h1, h2⟩ := fireTrigger_closed st h t
    rw [runTriggers_cons]
    obtain ⟨hst, hzero⟩ := ih (fireTrigger st t).1 (by rw [h1]; exact h)
    constructor
    · rw [hst, h1]
    · intro a ha
      simp only [List.count_append, h2 a ha, hzero a ha]

theorem fireTrigger_open_counts (st : Sess) (h : st.isClosed = false)
    (hw : st.writer.isSome = true) (hr : st.reader.isSome = true)
    (hs : st.remote.isSome = true) (hws : st.wsReadyState = 1) (t : Trigger) :
    (fireTrigger st t).1.isClosed = true ∧
    (fireTrigger st t).2.count Act.releaseWriter = 1 ∧
    (fireTrigger st t).2.count Act.releaseReader = 1 ∧
    (fireTrigger st t).2.count Act.closeSocket = 1 ∧
    (fireTrigger st t).2.count Act.closeWS = 1 := by
  have hcl := cleanup_open st h hw hr hs hws
  cases t with
  | peerClose =>
    rw [fireTrigger, if_neg (by simp [h]), hcl]
    refine ⟨rfl, ?_, ?_, ?_, ?_⟩ <;> simp [List.count_cons]
  | wsCloseEvt =>
    rw [fireTrigger, hcl]
    refine ⟨rfl, ?_, ?_, ?_, ?_⟩ <;> simp [List.count_cons]
  | wsErrEvt =>
    rw [fireTrigger, hcl]
    refine ⟨rfl, ?_, ?_, ?_, ?_⟩ <;> simp [List.count_cons]
  | msgError m =>
    rw [fireTrigger, hcl]
    refine ⟨rfl, ?_, ?_, ?_, ?_⟩ <;> simp [List.count_cons]
  | pumpExhausted =>
    rw [fireTrigger, if_neg (by simp [h]), hcl]
    refine ⟨rfl, ?_, ?_, ?_, ?_⟩ <;> simp [List.count_cons]

/-- C5: for any nonempty sequence of teardown triggers — peer `CLOSE`,
    WebSocket `close` or `error` events, a caught per-message handler error,
    pump exhaustion — fired against a live session that owns an outbound
    socket with reader and writer and an OPEN WebSocket, the underlying
    close operations (release writer, release reader, close the outbound
    socket, close the WebSocket) are each performed exactly once, and the
    session ends closed: the `isClosed` flag set by the first `cleanup`
    makes every later invocation return immediately (_worker.js:41). -/
theorem c5_teardown_exactly_once (ts : List Trigger) (st : Sess)
    (hne : ts ≠ []) (hopen : st.isClosed = false)
    (hw : st.writer.isSome = true) (hr : st.reader.isSome = true)
    (hs : st.remote.isSome = true) (hws : st.wsReadyState = 1) :
    (runTriggers ts st).2.count Act.releaseWriter = 1 ∧
    (runTriggers ts st).2.count Act.releaseReader = 1 ∧
    (runTriggers ts st).2.count Act.closeSocket = 1 ∧
    (runTriggers ts st).2.count Act.closeWS = 1 ∧
    (runTriggers ts st).1.isClosed = true := by
  cases ts with
  | nil => exact absurd rfl hne
  | cons t ts' =>
    rw [runTriggers_cons]
    obtain ⟨hc, h1, h2, h3, h4⟩ := fireTrigger_open_counts st hopen hw hr hs hws t
    obtain ⟨hst, hzero⟩ := runTriggers_closed ts' (fireTrigger st t).1 hc
    refine ⟨?_, ?_, ?_, ?_, ?_⟩
    · simp only [List.count_append, h1, hzero Act.releaseWriter rfl]
    · simp only [List.count_append, h2, hzero Act.releaseReader rfl]
    · simp only [List.count_append, h3, hzero Act.closeSocket rfl]
    · simp only [List.count_append, h4, hzero Act.closeWS rfl]
    · rw [hst]
      exact hc

/-- C5, witness: three triggers in a row (peer CLOSE, a handler error, pump
    exhaustion) against a connected session perform each close operation
    once and leave the session closed. -/
theorem c5_witness :
    (runTriggers [Trigger.peerClose, Trigger.msgError "x".toList, Trigger.pumpExhausted]
      ⟨false, false, some 1, some 1, some 1, 0, 1⟩).2.count Act.releaseWriter = 1 ∧
    (runTriggers [Trigger.peerClose, Trigger.msgError "x".toList, Trigger.pumpExhausted]
      ⟨false, false, some 1, some 1, some 1, 0, 1⟩).2.count Act.releaseReader = 1 ∧
    (runTriggers [Trigger.peerClose, Trigger.msgError "x".toList, Trigger.pumpExhausted]
      ⟨false, false, some 1, some 1, some 1, 0, 1⟩).2.count Act.closeSocket = 1 ∧
    (runTriggers [Trigger.peerClose, Trigger.msgError "x".toList, Trigger.pumpExhausted]
      ⟨false, false, some 1, some 1, some 1, 0, 1⟩).2.count Act.closeWS = 1 ∧
    (runTriggers [Trigger.peerClose, Trigger.msgError "x".toList, Trigger.pumpExhausted]
      ⟨false, false, some 1, some 1, some 1, 0, 1⟩).1.isClosed = true :=
  c5_teardown_exactly_once
    [Trigger.peerClose, Trigger.msgError "x".toList, Trigger.pumpExhausted]
    ⟨false, false, some 1, some 1, some 1, 0, 1⟩ (List.cons_ne_nil _ _) rfl rfl rfl rfl rfl

/-! ## Pump restart bound and teardown (C6) -/

theorem pump_closed (st : PState) (script : List REvent) (h : st.isClosed = true) :
    pump st script = ⟨st, [], true⟩ := by
  cases script with
  | nil => rw [pump.eq_def, if_pos h, pumpTail, if_pos h]
  | cons e rest => rw [pump.eq_def, if_pos h, pumpTail, if_pos h]

theorem pumpTail_restarts (st : PState) : countRestarts (pumpTail st).acts = 0 := by
  rw [pumpTail]
  by_cases h : st.isClosed = true
  · rw [if_pos h]; rfl
  · rw [if_neg h]; rfl

theorem pump_restarts_le (script : List REvent) : ∀ st : PState,
    countRestarts (pump st script).acts ≤ 3 - st.attempts := by
  induction script with
  | nil =>
    intro st
    rw [pump.eq_def]
    by_cases h : st.isClosed = true
    · rw [if_pos h]
      simp [pumpTail_restarts]
    · rw [if_neg h]
      simp [countRestarts]
  | cons e rest ih =>
    intro st
    rw [pump.eq_def]
    by_cases h : st.isClosed = true
    · rw [if_pos h]
      simp [pumpTail_restarts]
    · rw [if_neg h]
      cases e with
      | chunk sz wsOpen closedDuring =>
        by_cases hw : wsOpen = false
        · simp only [hw, if_pos rfl]
          simp [pumpTail_restarts]
        · simp only [if_neg hw]
          have := ih ⟨closedDuring, st.attempts⟩
          simp only [countRestarts, List.count_append] at *
          by_cases hsz : sz > 0 <;> simp_all [List.count_cons]
      | eof closedDuring => simp [pumpTail_restarts]
      | rerr closedDuring closedDuringDelay readableAfter =>
        by_cases hret : (⟨closedDuring, st.attempts⟩ : PState).isClosed = false ∧
            (⟨closedDuring, st.attempts⟩ : PState).attempts < 3
        · simp only [if_pos hret]
          by_cases hra : readableAfter = true ∧ closedDuringDelay = false
          · simp only [if_pos hra]
            have := ih ⟨closedDuringDelay, st.attempts + 1⟩
            simp only [countRestarts, List.count_cons] at *
            have hlt : st.attempts < 3 := hret.2
            simp_all
            omega
          · simp only [if_neg hra]
            simp [countRestarts, List.count_cons, pumpTail_restarts]
            have := pumpTail_restarts ⟨closedDuringDelay, st.attempts + 1⟩
            simp [countRestarts] at this
            simp [this]
        · simp only [if_neg hret]
          simp [pumpTail_restarts]



theorem pumpTail_delays (st : PState) : delayList (pumpTail st).acts = [] := by
  rw [pumpTail]
  by_cases h : st.isClosed = true
  · rw [if_pos h]; rfl
  · rw [if_neg h]; rfl

theorem pump_delays (script : List REvent) : ∀ st : PState,
    ∃ k, k ≤ 3 - st.attempts ∧
      delayList (pump st script).acts =
        (List.range k).map (fun i => 1000 * (st.attempts + i + 1)) := by
  induction script with
  | nil =>
    intro st
    refine ⟨0, by omega, ?_⟩
    rw [pump.eq_def]
    by_cases h : st.isClosed = true
    · rw [if_pos h]
      simp [pumpTail_delays]
    · rw [if_neg h]
      simp [delayList]
  | cons e rest ih =>
    intro st
    rw [pump.eq_def]
    by_cases h : st.isClosed = true
    · refine ⟨0, by omega, ?_⟩
      rw [if_pos h]
      simp [pumpTail_delays]
    · rw [if_neg h]
      cases e with
      | chunk sz wsOpen closedDuring =>
        by_cases hw : wsOpen = false
        · refine ⟨0, by omega, ?_⟩
          simp only [hw, if_pos rfl]
          simp [pumpTail_delays]
        · simp only [if_neg hw]
          obtain ⟨k, hk, hd⟩ := ih ⟨closedDuring, st.attempts⟩
          refine ⟨k, by simpa using hk, ?_⟩
          simp only [delayList, List.filterMap_append] at *
          by_cases hsz : sz > 0 <;> simp_all [delayList]
      | eof closedDuring =>
        refine ⟨0, by omega, ?_⟩
        simp [pumpTail_delays]
      | rerr closedDuring closedDuringDelay readableAfter =>
        by_cases hret : (⟨closedDuring, st.attempts⟩ : PState).isClosed = false ∧
            (⟨closedDuring, st.attempts⟩ : PState).attempts < 3
        · simp only [if_pos hret]
          have hlt : st.attempts < 3 := hret.2
          by_cases hra : readableAfter = true ∧ closedDuringDelay = false
          · simp only [if_pos hra]
            obtain ⟨k, hk, hd⟩ := ih ⟨closedDuringDelay, st.attempts + 1⟩
            simp only at hk hd
            refine ⟨k + 1, by omega, ?_⟩
            simp only [delayList, List.filterMap_cons] at *
            simp only [hd]
            rw [List.range_succ_eq_map]
            simp only [List.map_cons, List.map_map]
            refine List.cons_eq_cons.mpr ⟨by omega, ?_⟩
            apply List.map_congr_left
            intro i _
            simp
            omega
          · simp only [if_neg hra]
            refine ⟨1, by omega, ?_⟩
            have := pumpTail_delays ⟨closedDuringDelay, st.attempts + 1⟩
            simp only [delayList, List.filterMap_cons] at *
            simp [this]
            rw [show List.range 1 = [0] from rfl]
            simp
        · refine ⟨0, by omega, ?_⟩
          simp only [if_neg hret]
          simp [pumpTail_delays]

theorem pump_finished_closed (script : List REvent) : ∀ st : PState,
    (pump st script).finished = true → (pump st script).state.isClosed = true := by
  induction script with
  | nil =>
    intro st
    rw [pump.eq_def]
    by_cases h : st.isClosed = true
    · rw [if_pos h, pumpTail, if_pos h]
      intro _
      exact h
    · rw [if_neg h]
      intro hc
      cases hc
  | cons e rest ih =>
    intro st
    rw [pump.eq_def]
    by_cases h : st.isClosed = true
    · rw [if_pos h, pumpTail, if_pos h]
      intro _
      exact h
    · rw [if_neg h]
      cases e with
      | chunk sz wsOpen closedDuring =>
        by_cases hw : wsOpen = false
        · simp only [hw, if_pos rfl, pumpTail]
          by_cases h1 : (⟨closedDuring, st.attempts⟩ : PState).isClosed = true
          · rw [if_pos h1]
            intro _
            exact h1
          · rw [if_neg h1]
            intro _
            rfl
        · simp only [if_neg hw]
          exact ih ⟨closedDuring, st.attempts⟩
      | eof closedDuring =>
        simp only [pumpTail]
        by_cases h1 : (⟨closedDuring, st.attempts⟩ : PState).isClosed = true
        · rw [if_pos h1]
          intro _
          exact h1
        · rw [if_neg h1]
          intro _
          rfl
      | rerr closedDuring closedDuringDelay readableAfter =>
        by_cases hret : (⟨closedDuring, st.attempts⟩ : PState).isClosed = false ∧
            (⟨closedDuring, st.attempts⟩ : PState).attempts < 3
        · simp only [if_pos hret]
          by_cases hra : readableAfter = true ∧ closedDuringDelay = false
          · simp only [if_pos hra]
            exact ih ⟨closedDuringDelay, st.attempts + 1⟩
          · simp only [if_neg hra, pumpTail]
            by_cases h1 : (⟨closedDuringDelay, st.attempts + 1⟩ : PState).isClosed = true
            · rw [if_pos h1]
              intro _
              exact h1
            · rw [if_neg h1]
              intro _
              rfl
        · simp only [if_neg hret, pumpTail]
          by_cases h1 : (⟨closedDuring, st.attempts⟩ : PState).isClosed = true
          · rw [if_pos h1]
            intro _
            exact h1
          · rw [if_neg h1]
            intro _
            rfl



theorem pumpTail_open_acts (st : PState) (h : st.isClosed = false) :
    pumpTail st = ⟨⟨true, st.attempts⟩, [PAct.sendClose, PAct.doCleanup], true⟩ := by
  rw [pumpTail, if_neg (by simp [h])]

theorem pump_chunk_break (st : PState) (rest : List REvent) (sz : Nat) (cd : Bool)
    (hopen : st.isClosed = false) :
    pump st (REvent.chunk sz false cd :: rest) = pumpTail ⟨cd, st.attempts⟩ := by
  rw [pump.eq_def, if_neg (by simp [hopen])]
  simp

theorem pump_chunk_cont (st : PState) (rest : List REvent) (sz : Nat) (cd : Bool)
    (hopen : st.isClosed = false) :
    pump st (REvent.chunk sz true cd :: rest) =
      ⟨(pump ⟨cd, st.attempts⟩ rest).state,
       (if sz > 0 then [PAct.send sz] else []) ++ (pump ⟨cd, st.attempts⟩ rest).acts,
       (pump ⟨cd, st.attempts⟩ rest).finished⟩ := by
  rw [pump.eq_def, if_neg (by simp [hopen])]
  simp

theorem pump_eof_eq (st : PState) (rest : List REvent) (cd : Bool)
    (hopen : st.isClosed = false) :
    pump st (REvent.eof cd :: rest) = pumpTail ⟨cd, st.attempts⟩ := by
  rw [pump.eq_def, if_neg (by simp [hopen])]

theorem pump_rerr_restart (st : PState) (rest : List REvent)
    (hopen : st.isClosed = false) (hlt : st.attempts < 3) :
    pump st (REvent.rerr false false true :: rest) =
      ⟨(pump ⟨false, st.attempts + 1⟩ rest).state,
       PAct.sleep (1000 * (st.attempts + 1)) :: PAct.restart ::
         (pump ⟨false, st.attempts + 1⟩ rest).acts,
       (pump ⟨false, st.attempts + 1⟩ rest).finished⟩ := by
  rw [pump.eq_def, if_neg (by simp [hopen])]
  simp [hlt]

theorem pump_rerr_noRestart (st : PState) (rest : List REvent)
    (hopen : st.isClosed = false) (hlt : st.attempts < 3) :
    pump st (REvent.rerr false false false :: rest) =
      ⟨⟨true, st.attempts + 1⟩,
       [PAct.sleep (1000 * (st.attempts + 1)), PAct.sendClose, PAct.doCleanup],
       true⟩ := by
  rw [pump.eq_def, if_neg (by simp [hopen])]
  simp [hlt, pumpTail]

theorem pump_rerr_exhausted (st : PState) (rest : List REvent) (cdd ra : Bool)
    (hopen : st.isClosed = false) (hge : ¬ st.attempts < 3) :
    pump st (REvent.rerr false cdd ra :: rest) =
      ⟨⟨true, st.attempts⟩, [PAct.sendClose, PAct.doCleanup], true⟩ := by
  rw [pump.eq_def, if_neg (by simp [hopen])]
  simp [hge, pumpTail]

theorem pump_clean_ends (script : List REvent) : ∀ st : PState,
    cleanScript script = true → st.isClosed = false →
    (pump st script).finished = true →
    ∃ acts0, (pump st script).acts = acts0 ++ [PAct.sendClose, PAct.doCleanup] := by
  induction script with
  | nil =>
    intro st hclean hopen
    rw [pump.eq_def, if_neg (by simp [hopen])]
    intro hc
    cases hc
  | cons e rest ih =>
    intro st hclean hopen
    obtain ⟨he, hrest⟩ : cleanEvent e = true ∧ cleanScript rest = true := by
      simpa [cleanScript] using hclean
    cases e with
    | chunk sz wsOpen closedDuring =>
      have hcd : closedDuring = false := by simpa [cleanEvent] using he
      subst hcd
      cases wsOpen with
      | false =>
        rw [pump_chunk_break st rest sz false hopen,
          pumpTail_open_acts ⟨false, st.attempts⟩ rfl]
        intro _
        exact ⟨[], rfl⟩
      | true =>
        rw [pump_chunk_cont st rest sz false hopen]
        intro hfin
        obtain ⟨a0, ha⟩ := ih ⟨false, st.attempts⟩ hrest rfl hfin
        exact ⟨(if sz > 0 then [PAct.send sz] else []) ++ a0, by simp [ha]⟩
    | eof closedDuring =>
      have hcd : closedDuring = false := by simpa [cleanEvent] using he
      subst hcd
      rw [pump_eof_eq st rest false hopen,
        pumpTail_open_acts ⟨false, st.attempts⟩ rfl]
      intro _
      exact ⟨[], rfl⟩
    | rerr closedDuring closedDuringDelay readableAfter =>
      obtain ⟨hcd1, hcd2⟩ : closedDuring = false ∧ closedDuringDelay = false := by
        simpa [cleanEvent] using he
      subst hcd1
      subst hcd2
      by_cases hlt : st.attempts < 3
      · cases readableAfter with
        | true =>
          rw [pump_rerr_restart st rest hopen hlt]
          intro hfin
          obtain ⟨a0, ha⟩ := ih ⟨false, st.attempts + 1⟩ hrest rfl hfin
          exact ⟨PAct.sleep (1000 * (st.attempts + 1)) :: PAct.restart :: a0,
            by simp [ha]⟩
        | false =>
          rw [pump_rerr_noRestart st rest hopen hlt]
          intro _
          exact ⟨[PAct.sleep (1000 * (st.attempts + 1))], rfl⟩
      · rw [pump_rerr_exhausted st rest false readableAfter hopen hlt]
        intro _
        exact ⟨[], rfl⟩



/-- C6: from a fresh connection (restart counter 0, session live), the
    outbound-to-peer pump restarts at most 3 times; the retry delays are
    exactly 1000, 2000, ... ms in order, attempt-scaled, at most three of
    them; whenever the pump run finishes, the session is in the closed
    state; if no concurrent teardown intervenes, a finished run ends by
    sending CLOSE to the peer and invoking cleanup as its final two
    actions; and once teardown has started (isClosed set), the pump does
    nothing at all — in particular it never restarts. -/
theorem c6_pump_bounded_restart (script : List REvent) (st : PState)
    (h0 : st.attempts = 0) (hopen : st.isClosed = false) :
    countRestarts (pump st script).acts ≤ 3 ∧
    (∃ k, k ≤ 3 ∧ delayList (pump st script).acts =
      (List.range k).map (fun i => 1000 * (i + 1))) ∧
    ((pump st script).finished = true → (pump st script).state.isClosed = true) ∧
    (cleanScript script = true → (pump st script).finished = true →
      ∃ acts0, (pump st script).acts = acts0 ++ [PAct.sendClose, PAct.doCleanup]) ∧
    (∀ (st2 : PState) (script2 : List REvent), st2.isClosed = true →
      pump st2 script2 = ⟨st2, [], true⟩) := by
  refine ⟨?_, ?_, pump_finished_closed script st,
    fun hc hf => pump_clean_ends script st hc hopen hf,
    fun st2 sc2 h2 => pump_closed st2 sc2 h2⟩
  · have h := pump_restarts_le script st
    rw [h0] at h
    simpa using h
  · obtain ⟨k, hk, hd⟩ := pump_delays script st
    rw [h0] at hk hd
    exact ⟨k, by omega, by simpa using hd⟩

/-- C6, witness: a script with three read errors interleaved with a
    delivered chunk, then a fourth error: three restarts with delays 1000,
    2000, 3000 ms, then CLOSE and cleanup. -/
theorem c6_witness :
    countRestarts (pump ⟨false, 0⟩ [REvent.rerr false false true,
      REvent.chunk 5 true false, REvent.rerr false false true,
      REvent.rerr false false true, REvent.rerr false false false]).acts ≤ 3 ∧
    (∃ k, k ≤ 3 ∧ delayList (pump ⟨false, 0⟩ [REvent.rerr false false true,
      REvent.chunk 5 true false, REvent.rerr false false true,
      REvent.rerr false false true, REvent.rerr false false false]).acts =
      (List.range k).map (fun i => 1000 * (i + 1))) ∧
    ((pump ⟨false, 0⟩ [REvent.rerr false false true,
      REvent.chunk 5 true false, REvent.rerr false false true,
      REvent.rerr false false true, REvent.rerr false false false]).finished = true →
      (pump ⟨false, 0⟩ [REvent.rerr false false true,
      REvent.chunk 5 true false, REvent.rerr false false true,
      REvent.rerr false false true, REvent.rerr false false false]).state.isClosed = true) ∧
    (cleanScript [REvent.rerr false false true,
      REvent.chunk 5 true false, REvent.rerr false false true,
      REvent.rerr false false true, REvent.rerr false false false] = true →
      (pump ⟨false, 0⟩ [REvent.rerr false false true,
      REvent.chunk 5 true false, REvent.rerr false false true,
      REvent.rerr false false true, REvent.rerr false false false]).finished = true →
      ∃ acts0, (pump ⟨false, 0⟩ [REvent.rerr false false true,
      REvent.chunk 5 true false, REvent.rerr false false true,
      REvent.rerr false false true, REvent.rerr false false false]).acts =
        acts0 ++ [PAct.sendClose, PAct.doCleanup]) ∧
    (∀ (st2 : PState) (script2 : List REvent), st2.isClosed = true →
      pump st2 script2 = ⟨st2, [], true⟩) :=
  c6_pump_bounded_restart [REvent.rerr false false true,
    REvent.chunk 5 true false, REvent.rerr false false true,
    REvent.rerr false false true, REvent.rerr false false false] ⟨false, 0⟩ rfl rfl

end ECH
